import Mathlib

/-!
Shallow embedding of the justicebot ledger core (src/project-justice/database.js and
the command handlers of src/project-justice/index.js that touch the ledger).

Relational state is modelled as lists of rows; row updates follow SQL semantics
(an UPDATE touches every row matching the WHERE clause, a SELECT reads the first
match).  Monetary NUMERIC values are rationals; epoch-millisecond timestamps are
integers; UTC calendar days are integers (day numbers), so the source expression
Math.floor((todayDate - lastDate) / 86400000) over midnight dates is an exact
integer difference.  JavaScript String(n) / parseInt / parseFloat on the decimal
strings the system itself stores are modelled by the executable printer and
parsers below; the exotic inputs they do not cover (exponents, Infinity, NaN
poisoning from unparseable stored settings) never arise from the modelled
operations and are excluded by theorem hypotheses where relevant.
-/

/-- Row of the users table (database.js schema creation).  The
display-only created_at and updated_at columns and the spam fields not read by
any modelled operation are omitted.  wallet is TEXT; both SQL NULL and the empty
string are falsy at every use site, so the empty string stands for both. -/
structure User where
  id : Nat
  username : Option String
  balance : ℚ
  wallet : String
  referred_by : Option Nat
  verified : Bool
  registered_at : Int
  last_seen : Int
  message_count : Int
  activity_score : ℚ
  current_streak : Int
  longest_streak : Int
  last_activity_date : Option Int
  engagement_tier : String
  tier_updated_at : Option Int
  group_message_count : Int
  bot_message_count : Int
deriving DecidableEq, Repr

/-- Row of the task_submissions table.  task_reward is NUMERIC NULL: the source
reads it as parseFloat(submission.task_reward || 0). -/
structure Submission where
  id : Nat
  user_id : Nat
  task_id : Nat
  task_title : Option String
  task_reward : Option ℚ
  status : String
  submitted_at : Int
  reviewed_at : Option Int
  reviewed_by : Option Nat
deriving DecidableEq, Repr

/-- Row of the completed_tasks table, PRIMARY KEY (user_id, task_id). -/
structure CompletedTask where
  user_id : Nat
  task_id : Nat
  completed_at : Int
  reward : Option ℚ
deriving DecidableEq, Repr

/-- Row of the withdrawal_requests table. -/
structure Withdrawal where
  id : Nat
  user_id : Nat
  amount : ℚ
  wallet : String
  status : String
  requested_at : Int
  reviewed_at : Option Int
  reviewed_by : Option Nat
deriving DecidableEq, Repr

/-- Row of the user_activity_log table (only the columns read by
getUserActivityStats are modelled). -/
structure ActivityEntry where
  user_id : Nat
  activity_type : String
  timestamp : Int
deriving DecidableEq, Repr

/-- The relational store: users, referrals (referrer_id, referred_id),
task_submissions, completed_tasks, withdrawal_requests, bot_settings
(key, value) and user_activity_log. -/
structure DB where
  users : List User
  referrals : List (Nat × Nat)
  submissions : List Submission
  completed : List CompletedTask
  withdrawals : List Withdrawal
  settings : List (String × String)
  activity_log : List ActivityEntry
deriving DecidableEq, Repr

/-- SQL UPDATE ... WHERE p: apply f to every row matching p. -/
def updateWhere (p : α → Bool) (f : α → α) (l : List α) : List α :=
  l.map fun a => if p a then f a else a

/-- getUser(userId): SELECT * FROM users WHERE id = $1 (first match). -/
def getUser (db : DB) (uid : Nat) : Option User :=
  db.users.find? (fun u => u.id == uid)

/-- getSubmissionById(submissionId): SELECT * FROM task_submissions WHERE id = $1. -/
def getSubmissionById (db : DB) (sid : Nat) : Option Submission :=
  db.submissions.find? (fun s => s.id == sid)

/-- Balance of the account row with the given id (0 if absent); reads the same
row getUser reads. -/
def balanceOf (db : DB) (uid : Nat) : ℚ :=
  match getUser db uid with
  | some u => u.balance
  | none => 0

/-- Status column of the submission row with the given id. -/
def submissionStatus (db : DB) (sid : Nat) : Option String :=
  (getSubmissionById db sid).map (·.status)

/- ----------------------- decimal printing and JS number parsing ----------------------- -/

/-- Decimal digit character for d < 10. -/
def digitToChar (d : Nat) : Char := Char.ofNat (48 + d)

/-- Bool test for an ASCII decimal digit. -/
def isDigitChar (c : Char) : Bool := 48 ≤ c.toNat && c.toNat ≤ 57

/-- Numeric value of an ASCII digit character. -/
def charToDigit (c : Char) : Nat := c.toNat - 48

/-- Decimal digit characters of a natural number, most significant first. -/
def natDecDigits (n : Nat) : List Char :=
  if n = 0 then ['0'] else ((Nat.digits 10 n).map digitToChar).reverse

/-- JavaScript String(n) for an integer n: its decimal rendering. -/
def intToDecString (m : Int) : String :=
  if m < 0 then ⟨'-' :: natDecDigits m.natAbs⟩ else ⟨natDecDigits m.toNat⟩

/-- Value of the longest leading run of digit characters; none when that run is
empty (the JS parsers yield NaN there, modelled as none). -/
def parseLeadingNat (l : List Char) : Option Nat :=
  let ds := l.takeWhile isDigitChar
  if ds.isEmpty then none
  else some (Nat.ofDigits 10 (ds.map charToDigit).reverse)

/-- JavaScript parseInt on the decimal strings the system stores: an optional
leading minus sign followed by leading digits; trailing characters are ignored;
none models NaN. -/
def jsParseInt (s : String) : Option Int :=
  match s.data with
  | [] => none
  | c :: rest =>
    if c = '-' then (parseLeadingNat rest).map (fun n => -(Int.ofNat n))
    else (parseLeadingNat (c :: rest)).map (fun n => Int.ofNat n)

/-- Fractional value of the digit characters after a decimal point. -/
def fracValue (l : List Char) : ℚ :=
  l.foldr (fun c acc => ((charToDigit c : ℚ) + acc) / 10) 0

/-- Leading decimal literal of a character list: integer digits with an optional
fraction part; none when neither part has a digit (JS NaN). -/
def parseLeadingRat (l : List Char) : Option ℚ :=
  let intDs := l.takeWhile isDigitChar
  let rest := l.drop intDs.length
  let fracDs := match rest with
    | '.' :: r => r.takeWhile isDigitChar
    | _ => []
  if intDs.isEmpty && fracDs.isEmpty then none
  else
    let ipart : ℕ := Nat.ofDigits 10 (intDs.map charToDigit).reverse
    if fracDs.isEmpty then some (ipart : ℚ) else some ((ipart : ℚ) + fracValue fracDs)

/-- JavaScript parseFloat on the plain decimal strings the system stores
(optional sign, digits, optional fraction); none models NaN. -/
def jsParseFloat (s : String) : Option ℚ :=
  match s.data with
  | [] => none
  | c :: rest =>
    if c = '-' then (parseLeadingRat rest).map (fun q => -q)
    else parseLeadingRat (c :: rest)

/- ----------------------- bot_settings store ----------------------- -/

/-- Stored value column for a key, if the row exists. -/
def getSettingRaw (db : DB) (key : String) : Option String :=
  (db.settings.find? (fun kv => kv.1 == key)).map (·.2)

/-- getSetting(key): result.rows[0]?.value || null — an absent row gives null,
and an empty stored string is falsy, so it also gives null. -/
def getSetting (db : DB) (key : String) : Option String :=
  match getSettingRaw db key with
  | some v => if v = "" then none else some v
  | none => none

/-- setSetting(key, value): INSERT ... ON CONFLICT (key) DO UPDATE SET value.
The JS String(value) coercion is applied by callers of this model. -/
def setSetting (db : DB) (key value : String) : DB :=
  if (db.settings.find? (fun kv => kv.1 == key)).isSome then
    { db with settings := updateWhere (fun kv => kv.1 == key) (fun kv => (kv.1, value)) db.settings }
  else
    { db with settings := db.settings ++ [(key, value)] }

/-- parseInt(getSetting(key)) || 0: the integer reading of a stored counter,
0 for an absent row or an unparseable value. -/
def settingIntOr0 (db : DB) (key : String) : Int :=
  match getSetting db key with
  | none => 0
  | some s => (jsParseInt s).getD 0

/-- parseFloat(getSetting(key)) || dflt as in the withdrawal handler: NaN and a
stored zero are both falsy, so both fall back to the default. -/
def settingFloatOr (db : DB) (key : String) (dflt : ℚ) : ℚ :=
  match getSetting db key with
  | none => dflt
  | some s =>
    match jsParseFloat s with
    | none => dflt
    | some q => if q = 0 then dflt else q

/- ----------------------- transactional task approval ----------------------- -/

/-- Errors thrown inside approveSubmissionAtomic.  The first three are the
source error messages (Submission not found / Submission not pending / User not
found); the last two stand for a storage error forced at the completed-task
insert or the counter upsert, used to model the failure-injection part of the
atomicity property. -/
inductive ApproveErr
  | submissionNotFound
  | submissionNotPending
  | userNotFound
  | completedInsertFailure
  | counterUpdateFailure
deriving DecidableEq, Repr

/-- Failure-injection switches for the two late write steps of the approval
transaction; both false reproduces the unmodified source. -/
structure FailFlags where
  failCompletedInsert : Bool
  failCounterUpdate : Bool
deriving DecidableEq, Repr

/-- No injected failures: the source as written. -/
def noFail : FailFlags := ⟨false, false⟩

/-- INSERT INTO completed_tasks ... ON CONFLICT (user_id, task_id) DO NOTHING. -/
def insertCompletedTask (db : DB) (uid tid : Nat) (now : Int) (reward : Option ℚ) : DB :=
  if db.completed.any (fun c => c.user_id == uid && c.task_id == tid) then db
  else { db with completed := db.completed ++ [⟨uid, tid, now, reward⟩] }

/-- UPDATE task_submissions SET status = approved, reviewed_at, reviewed_by:
the per-row change both approval paths apply. -/
def approveSubmissionUpdate (reviewedBy : Nat) (now : Int) (s : Submission) : Submission :=
  { s with status := "approved", reviewed_at := some now, reviewed_by := some reviewedBy }

/-- UPDATE users SET balance = $1 WHERE id = $2: the absolute balance write all
ledger operations use. -/
def setBalance (uid : Nat) (newBalance : ℚ) (l : List User) : List User :=
  updateWhere (fun x => x.id == uid) (fun x => { x with balance := newBalance }) l

/-- approveSubmissionAtomic(submissionId, reviewedBy) from database.js: lock and
check the submission, lock the owning user, mark approved, credit the
snapshotted reward, insert the completed-task record, bump the tasksApproved
counter (read through the pool, hence from the pre-transaction state), then
COMMIT.  An error value means the transaction rolled back: the caller keeps
observing the input state. -/
def approveSubmissionAtomic (ff : FailFlags) (db : DB) (submissionId reviewedBy : Nat)
    (now : Int) : Except ApproveErr (DB × Nat × ℚ) :=
  match getSubmissionById db submissionId with
  | none => .error .submissionNotFound
  | some submission =>
    if submission.status ≠ "pending" then .error .submissionNotPending
    else
      match getUser db submission.user_id with
      | none => .error .userNotFound
      | some user =>
        let subs1 := updateWhere (fun s => s.id == submissionId)
          (approveSubmissionUpdate reviewedBy now) db.submissions
        let db1 := { db with submissions := subs1 }
        let newBalance := user.balance + submission.task_reward.getD 0
        let db2 := { db1 with users := setBalance user.id newBalance db1.users }
        if ff.failCompletedInsert then .error .completedInsertFailure
        else
          let db3 := insertCompletedTask db2 user.id submission.task_id now submission.task_reward
          if ff.failCounterUpdate then .error .counterUpdateFailure
          else
            let db4 := setSetting db3 "tasksApproved"
                (intToDecString (settingIntOr0 db "tasksApproved" + 1))
            .ok (db4, user.id, newBalance)

/-- State the caller observes after an approval call: the committed state on
success, the unchanged input state after a ROLLBACK. -/
def approveObservable (ff : FailFlags) (db : DB) (sid rev : Nat) (now : Int) : DB :=
  match approveSubmissionAtomic ff db sid rev now with
  | .ok (db', _, _) => db'
  | .error _ => db

/- ----------------------- bulk approval ----------------------- -/

/-- Body of the per-row loop of approveAllPendingSubmissions: skip the row when
the owning user row is gone, otherwise mark approved, credit the snapshotted
reward and insert the completed-task record, counting the row as processed. -/
def bulkApproveStep (reviewedBy : Nat) (now : Int) (acc : DB × Nat) (submission : Submission) :
    DB × Nat :=
  match getUser acc.1 submission.user_id with
  | none => acc
  | some user =>
    let subs1 := updateWhere (fun s => s.id == submission.id)
      (approveSubmissionUpdate reviewedBy now) acc.1.submissions
    let db1 := { acc.1 with submissions := subs1 }
    let newBalance := user.balance + submission.task_reward.getD 0
    let db2 := { db1 with users := setBalance user.id newBalance db1.users }
    let db3 := insertCompletedTask db2 user.id submission.task_id now submission.task_reward
    (db3, acc.2 + 1)

/-- approveAllPendingSubmissions(reviewedBy) from database.js (the transactional
variant at lines 476-527): lock the pending set, run the per-row effects in
order, then bump tasksApproved by the processed count (the counter read goes
through the pool, i.e. the pre-transaction state, which the loop never touches),
and COMMIT.  Returns the new state and approvedCount. -/
def approveAllPendingSubmissions (db : DB) (reviewedBy : Nat) (now : Int) : DB × Nat :=
  let pending := db.submissions.filter (fun s => s.status == "pending")
  let res := pending.foldl (bulkApproveStep reviewedBy now) (db, 0)
  let db2 := setSetting res.1 "tasksApproved"
      (intToDecString (settingIntOr0 db "tasksApproved" + res.2))
  (db2, res.2)

/- ----------------------- verification and referral reward ----------------------- -/

/-- Error thrown by verifyUserAndReward when the referee row is absent. -/
inductive VerifyErr
  | refereeNotFound
deriving DecidableEq, Repr

/-- Result marker of verifyUserAndReward: { alreadyVerified: true } or
{ success: true }. -/
inductive VerifyResult
  | alreadyVerified
  | success
deriving DecidableEq, Repr

/-- parseFloat((await getSetting("referralReward")) || "0").  A stored value
that does not parse makes the source compute with NaN; such states never arise
from the modelled writers and the reward theorem assumes a parseable value. -/
def referralRewardValue (db : DB) : ℚ :=
  (jsParseFloat ((getSetting db "referralReward").getD "0")).getD 0

/-- INSERT INTO referrals VALUES (referrerId, referredId) ON CONFLICT DO NOTHING. -/
def addReferralEdge (db : DB) (referrerId referredId : Nat) : DB :=
  if db.referrals.any (fun e => e.1 == referrerId && e.2 == referredId) then db
  else { db with referrals := db.referrals ++ [(referrerId, referredId)] }

/-- UPDATE users SET verified = TRUE WHERE id = refereeId. -/
def markVerified (db : DB) (refereeId : Nat) : DB :=
  { db with users := updateWhere (fun u => u.id == refereeId) (fun u => { u with verified := true }) db.users }

/-- verifyUserAndReward(refereeId) from database.js: lock the referee (error if
absent), short-circuit when already verified, otherwise mark verified; when the
referee has a referrer whose row exists, credit the referrer by the current
referralReward setting and insert the referral edge idempotently; a missing
referrer row still commits the verification without a reward. -/
def verifyUserAndReward (db : DB) (refereeId : Nat) : Except VerifyErr (DB × VerifyResult) :=
  match getUser db refereeId with
  | none => .error .refereeNotFound
  | some referee =>
    if referee.verified then .ok (db, .alreadyVerified)
    else
      let db1 := markVerified db refereeId
      match referee.referred_by with
      | none => .ok (db1, .success)
      | some referrerId =>
        match getUser db1 referrerId with
        | none => .ok (db1, .success)
        | some referrer =>
          let newBalance := referrer.balance + referralRewardValue db
          let db2 := { db1 with users := setBalance referrerId newBalance db1.users }
          let db3 := addReferralEdge db2 referrerId refereeId
          .ok (db3, .success)

/- ----------------------- account lifecycle ----------------------- -/

/-- Chat context passed to ensureUser (only chatType is read). -/
structure ActivityContext where
  chatType : Option String
deriving DecidableEq, Repr

/-- JS truthiness of the username argument (a string is truthy iff non-empty). -/
def usernameTruthy : Option String → Bool
  | some s => s ≠ ""
  | none => false

/-- createUser(userId, username) from database.js: INSERT a fresh row (zero
balance, empty wallet, unverified, zero counters and streaks, activity date set
to today, tier Regular) ON CONFLICT (id) DO UPDATE SET username, last_seen. -/
def createUser (db : DB) (uid : Nat) (username : Option String) (now : Int) (today : Int) :
    DB × User :=
  match getUser db uid with
  | some existing =>
    let merged := { existing with username := username, last_seen := now }
    ({ db with users := updateWhere (fun u => u.id == uid) (fun _ => merged) db.users }, merged)
  | none =>
    let fresh : User :=
      { id := uid, username := username, balance := 0, wallet := "", referred_by := none,
        verified := false, registered_at := now, last_seen := now, message_count := 0,
        activity_score := 0, current_streak := 0, longest_streak := 0,
        last_activity_date := some today, engagement_tier := "Regular",
        tier_updated_at := none, group_message_count := 0, bot_message_count := 0 }
    ({ db with users := db.users ++ [fresh] }, fresh)

/-- The updates object ensureUser(userId, username, updateActivity,
activityContext) builds for an existing row: refresh last_seen, merge a changed
non-empty username, and when updateActivity holds recompute the streak from the
day difference to last_activity_date, bump the chat-dependent message counters,
recompute the activity score, and stamp last_activity_date with today.  now is
Date.now() in epoch milliseconds, today the current UTC day number. -/
def ensureUserRow (username : Option String) (updateActivity : Bool)
    (ctx : ActivityContext) (now : Int) (today : Int) (user : User) : User :=
  let usernameChanged :=
    match username, user.username with
    | some s, some t => s ≠ t
    | some _, none => true
    | none, _ => false
  let newUsername :=
    if usernameTruthy username && usernameChanged then username else user.username
  if updateActivity then
    let streaks : Int × Int :=
      match user.last_activity_date with
      | some lastDay =>
        let daysDiff : Int := today - lastDay
        if daysDiff = 1 then
          (user.current_streak + 1, max (user.current_streak + 1) user.longest_streak)
        else if daysDiff > 1 then (1, user.longest_streak)
        else (user.current_streak, user.longest_streak)
      | none => (1, 1)
    let isGroup := ctx.chatType == some "group" || ctx.chatType == some "supergroup"
    let newGroupCount :=
      if isGroup then user.group_message_count + 1 else user.group_message_count
    let newBotCount := if isGroup then user.bot_message_count else user.bot_message_count + 1
    let newMessageCount := user.message_count + 1
    let hoursSinceRegistration : ℚ := ((now - user.registered_at : Int) : ℚ) / 3600000
    let newScore :=
      if 0 < hoursSinceRegistration then
        (newMessageCount : ℚ) / max hoursSinceRegistration (1 / 100)
      else user.activity_score
    { user with
      username := newUsername
      last_seen := now
      current_streak := streaks.1
      longest_streak := streaks.2
      last_activity_date := some today
      group_message_count := newGroupCount
      bot_message_count := newBotCount
      message_count := newMessageCount
      activity_score := newScore }
  else { user with username := newUsername, last_seen := now }

/-- ensureUser, existing-row path: apply the merged updates object of the
source (updateUser) to the row.  The absent-row path creates the row. -/
def ensureUser (db : DB) (uid : Nat) (username : Option String) (updateActivity : Bool)
    (ctx : ActivityContext) (now : Int) (today : Int) : DB × User :=
  match getUser db uid with
  | none => createUser db uid username now today
  | some user =>
    let user2 := ensureUserRow username updateActivity ctx now today user
    ({ db with users := updateWhere (fun u => u.id == uid) (fun _ => user2) db.users }, user2)

/- ----------------------- referral analysis ----------------------- -/

/-- getUserReferrals(userId): referred ids of the edges whose referrer is the
given user, in table order. -/
def getUserReferrals (db : DB) (uid : Nat) : List Nat :=
  (db.referrals.filter (fun e => e.1 == uid)).map (·.2)

/-- getUserCompletedTasks(userId): task ids of the completed-task rows of the
given user. -/
def getUserCompletedTasks (db : DB) (uid : Nat) : List Nat :=
  (db.completed.filter (fun c => c.user_id == uid)).map (·.task_id)

/-- Point score of one referred account inside analyzeReferralPattern: message
count tier (1/5/10), activity score tier (0.1/0.5), wallet set, verified,
account age tier (1h/24h), and having any completed task. -/
def referralScore (db : DB) (now : Int) (refUser : User) : Nat :=
  let messageCount := refUser.message_count
  let activityScore := refUser.activity_score
  let hasWallet := refUser.wallet ≠ ""
  let hoursSinceRegistration : ℚ := ((now - refUser.registered_at : Int) : ℚ) / (1000 * 60 * 60)
  let msgPts : Nat := if messageCount ≥ 10 then 3 else if messageCount ≥ 5 then 2
    else if messageCount ≥ 1 then 1 else 0
  let actPts : Nat := if activityScore > 0.5 then 2 else if activityScore > 0.1 then 1 else 0
  let walletPts : Nat := if hasWallet then 2 else 0
  let verifiedPts : Nat := if refUser.verified then 2 else 0
  let agePts : Nat := if hoursSinceRegistration > 24 then 2
    else if hoursSinceRegistration > 1 then 1 else 0
  let taskPts : Nat := if (getUserCompletedTasks db refUser.id).length > 0 then 2 else 0
  msgPts + actPts + walletPts + verifiedPts + agePts + taskPts

/-- One referral counts as real when its account row exists and scores at least
5 points; a referral whose account row is gone is never real. -/
def isRealReferral (db : DB) (now : Int) (refId : Nat) : Bool :=
  match getUser db refId with
  | none => false
  | some refUser => referralScore db now refUser ≥ 5

/-- Star rating band of analyzeReferralPattern. -/
def ratingOf (realPercentage : ℚ) : String :=
  if realPercentage ≥ 80 then "⭐⭐⭐⭐⭐"
  else if realPercentage ≥ 60 then "⭐⭐⭐⭐"
  else if realPercentage ≥ 40 then "⭐⭐⭐"
  else if realPercentage ≥ 20 then "⭐⭐"
  else "⭐"

/-- Result record of analyzeReferralPattern.  The source formats percentage
with toFixed(1) for display; the numeric value is modelled exactly and the one
numeric consumer (updateEngagementTier) applies the decimal rounding of that
round trip explicitly. -/
structure RefAnalysis where
  realRefs : Nat
  suspiciousRefs : Nat
  score : String
  percentage : ℚ
deriving DecidableEq, Repr

/-- analyzeReferralPattern(userId) from database.js: zero referrals give the
vacuously perfect result; otherwise each referred account is classified real or
suspicious by its point score (missing rows are suspicious), the real
percentage is realCount / total * 100, and the star rating is its band. -/
def analyzeReferralPattern (db : DB) (now : Int) (uid : Nat) : RefAnalysis :=
  let referrals := getUserReferrals db uid
  if referrals.isEmpty then ⟨0, 0, "⭐⭐⭐⭐⭐", 100⟩
  else
    let realCount := (referrals.filter (isRealReferral db now)).length
    let suspiciousCount := (referrals.filter (fun r => !isRealReferral db now r)).length
    let totalRefs := referrals.length
    let realPercentage : ℚ := if totalRefs > 0 then ((realCount : ℚ) / totalRefs) * 100 else 0
    ⟨realCount, suspiciousCount, ratingOf realPercentage, realPercentage⟩

/- ----------------------- engagement tier ----------------------- -/

/-- toFixed(1) followed by parseFloat on a non-negative value: round to one
decimal, ties rounding up. -/
def round1 (q : ℚ) : ℚ := (⌊q * 10 + 1 / 2⌋ : ℚ) / 10

/-- Count of activity-log rows of the user in the trailing window, as summed
from getUserActivityStats(userId, 7 days) in updateEngagementTier. -/
def totalActivities7d (db : DB) (uid : Nat) (now : Int) : Nat :=
  (db.activity_log.filter
    (fun e => e.user_id == uid && decide (now - 604800000 ≤ e.timestamp))).length

/-- Tier band of updateEngagementTier, by descending thresholds. -/
def tierOfScore (tierScore : ℚ) : String :=
  if tierScore ≥ 70 then "Elite"
  else if tierScore ≥ 50 then "Active"
  else if tierScore ≥ 30 then "Regular"
  else if tierScore ≥ 15 then "Dormant"
  else "Ghost"

/-- Weighted 0-100 engagement score of updateEngagementTier: activity frequency
over the trailing 7 days, streak bonus, completed tasks, referral quality,
verification bonus and account age, each clamped, then the inactivity penalty
multiplier.  referralQuality is parseFloat of the toFixed(1) percentage. -/
def engagementScore (db : DB) (uid : Nat) (now : Int) : ℚ :=
  match getUser db uid with
  | none => 0
  | some user =>
    let daysSinceRegistration : ℚ := ((now - user.registered_at : Int) : ℚ) / (1000 * 60 * 60 * 24)
    let hoursSinceLastSeen : ℚ := ((now - user.last_seen : Int) : ℚ) / (1000 * 60 * 60)
    let totalActivities := totalActivities7d db uid now
    let referralQuality := round1 (analyzeReferralPattern db now uid).percentage
    let taskCount := (getUserCompletedTasks db uid).length
    let activitiesPerDay : ℚ := (totalActivities : ℚ) / 7
    let base :=
      min 30 (activitiesPerDay * 3)
      + min 15 ((user.current_streak : ℚ) * 1.5)
      + min 20 ((taskCount : ℚ) * 4)
      + (referralQuality / 100) * 15
      + (if user.verified then 10 else 0)
      + min 10 (daysSinceRegistration * 0.5)
    if hoursSinceLastSeen > 168 then base * 0.5
    else if hoursSinceLastSeen > 72 then base * 0.7
    else base

/-- UPDATE users SET engagement_tier, tier_updated_at: the persistence write of
updateEngagementTier. -/
def tierRowUpdate (tier : String) (now : Int) (x : User) : User :=
  { x with engagement_tier := tier, tier_updated_at := some now }

/-- updateEngagementTier(userId) from database.js: none result for a missing
row; otherwise compute the weighted score, map it to its tier band, persist the
tier and the update timestamp on the user row, and return both. -/
def updateEngagementTier (db : DB) (uid : Nat) (now : Int) : DB × Option (String × ℚ) :=
  match getUser db uid with
  | none => (db, none)
  | some _ =>
    let tierScore := engagementScore db uid now
    let tier := tierOfScore tierScore
    let users2 := updateWhere (fun u => u.id == uid)
      (tierRowUpdate (tierOfScore tierScore) now) db.users
    ({ db with users := users2 }, some (tier, tierScore))

/- ----------------------- withdrawals ----------------------- -/

/-- Outcomes of the requestwithdraw command handler in index.js that stop the
request, in source order.  userRowMissing marks the TypeError the source throws
when reading user.balance on an absent row. -/
inductive WithdrawErr
  | invalidAmount
  | withdrawalsClosed
  | amountOutOfBounds
  | userRowMissing
  | insufficientBalance
  | walletNotSet
deriving DecidableEq, Repr

/-- ValidationError class of the spec error taxonomy: amount out of configured
bounds, non-positive amount, or missing wallet. -/
def isValidationError : WithdrawErr → Bool
  | .invalidAmount => true
  | .amountOutOfBounds => true
  | .walletNotSet => true
  | _ => false

/-- Fresh SERIAL id for a withdrawal_requests insert. -/
def freshWithdrawalId (db : DB) : Nat :=
  db.withdrawals.foldl (fun m w => max m w.id) 0 + 1

/-- requestwithdraw handler of index.js: validate the parsed amount, the
withdrawalOpen flag, the configured bounds, the balance and the wallet, then
INSERT the pending request (createWithdrawalRequest) and debit the account by
the requested amount.  The amount argument is parseFloat of the command text
(none for NaN). -/
def requestWithdraw (db : DB) (uid : Nat) (amount : Option ℚ) (now : Int) :
    Except WithdrawErr DB :=
  match amount with
  | none => .error .invalidAmount
  | some a =>
    if a ≤ 0 then .error .invalidAmount
    else if !(getSetting db "withdrawalOpen" == some "true") then .error .withdrawalsClosed
    else
      let minWithdrawal := settingFloatOr db "minWithdrawal" 50
      let maxWithdrawal := settingFloatOr db "maxWithdrawal" 10000
      if a < minWithdrawal ∨ a > maxWithdrawal then .error .amountOutOfBounds
      else
        match getUser db uid with
        | none => .error .userRowMissing
        | some user =>
          if user.balance < a then .error .insufficientBalance
          else if user.wallet = "" then .error .walletNotSet
          else
            let request : Withdrawal :=
              { id := freshWithdrawalId db, user_id := uid, amount := a, wallet := user.wallet,
                status := "pending", requested_at := now, reviewed_at := none,
                reviewed_by := none }
            let db1 := { db with withdrawals := db.withdrawals ++ [request] }
            .ok { db1 with users := setBalance uid (user.balance - a) db1.users }

/-- State the requester observes: the new state on success, the unchanged input
state when the handler returned early. -/
def requestWithdrawObservable (db : DB) (uid : Nat) (amount : Option ℚ) (now : Int) : DB :=
  match requestWithdraw db uid amount now with
  | .ok db' => db'
  | .error _ => db

/-- updateWithdrawalStatus(withdrawalId, status, reviewedBy) from database.js:
UPDATE withdrawal_requests SET status, reviewed_at, reviewed_by WHERE id.  Both
the approve and the reject admin handlers call exactly this; neither touches
any balance. -/
def updateWithdrawalStatus (db : DB) (withdrawalId : Nat) (status : String)
    (reviewedBy : Option Nat) (now : Int) : DB :=
  let rows := updateWhere (fun w => w.id == withdrawalId)
    (fun w => { w with status := status, reviewed_at := some now, reviewed_by := reviewedBy })
    db.withdrawals
  { db with withdrawals := rows }

/- ----------------------- named intermediate states ----------------------- -/

/-- The state approveSubmissionAtomic commits for a pending submission sub
owned by the existing user u: submission approved, balance credited by the
snapshotted reward, completed-task record inserted, counter bumped. -/
def approveCommitState (db : DB) (sid rev : Nat) (now : Int) (sub : Submission) (u : User) : DB :=
  let db2 : DB :=
    { db with
      submissions := updateWhere (fun s => s.id == sid) (approveSubmissionUpdate rev now) db.submissions,
      users := setBalance u.id (u.balance + sub.task_reward.getD 0) db.users }
  let db3 := insertCompletedTask db2 u.id sub.task_id now sub.task_reward
  setSetting db3 "tasksApproved" (intToDecString (settingIntOr0 db "tasksApproved" + 1))

/- ----------------------- sample rows and stores for concrete runs ----------------------- -/

/-- An account row with every derived field at its freshly created default. -/
def baseUser (uid : Nat) : User :=
  { id := uid, username := some "user", balance := 100, wallet := "addr1",
    referred_by := none, verified := false, registered_at := 0, last_seen := 0,
    message_count := 0, activity_score := 0, current_streak := 0, longest_streak := 0,
    last_activity_date := none, engagement_tier := "Regular", tier_updated_at := none,
    group_message_count := 0, bot_message_count := 0 }

/-- A pending submission row. -/
def baseSubmission (sid uid tid : Nat) (reward : ℚ) : Submission :=
  { id := sid, user_id := uid, task_id := tid, task_title := some "task",
    task_reward := some reward, status := "pending", submitted_at := 0,
    reviewed_at := none, reviewed_by := none }

/-- The empty relational store. -/
def emptyDB : DB := ⟨[], [], [], [], [], [], []⟩

/-- Concrete out-of-bounds rejection: amount 5 with minimum 50. -/
def withdrawDB : DB :=
  { emptyDB with
    users := [baseUser 1],
    settings := [("withdrawalOpen", "true"), ("minWithdrawal", "50"), ("maxWithdrawal", "10000")] }

/-- Projection of a withdrawal row onto everything except its status and review
fields. -/
def withdrawalCore (w : Withdrawal) : Nat × Nat × ℚ × String × Int :=
  (w.id, w.user_id, w.amount, w.wallet, w.requested_at)

/-- Concrete double approval: submission 5 (reward 10) of account 1. -/
def approveDB : DB :=
  { emptyDB with
    users := [baseUser 1],
    submissions := [baseSubmission 5 1 3 10],
    settings := [("tasksApproved", "0")] }

/-- Concrete referral pair: account 2 was referred by the verified account 1,
referralReward is stored as "20". -/
def verifyDB : DB :=
  { emptyDB with
    users := [{ baseUser 1 with verified := true }, { baseUser 2 with referred_by := some 1 }],
    settings := [("referralReward", "20")] }

/-- Concrete referral graph: account 2 referred account 1, whose row has no
messages, zero activity, no wallet, no verification and no completed task. -/
def refDB : DB :=
  { emptyDB with
    users := [{ baseUser 1 with wallet := "" }],
    referrals := [(2, 1)] }

/-- Concrete account with a streak: last active on day 99, current streak 3,
longest 5. -/
def streakUser : User :=
  { baseUser 1 with
    last_activity_date := some 99
    current_streak := 3
    longest_streak := 5 }

/-- Store holding only the streak account. -/
def streakDB : DB := { emptyDB with users := [streakUser] }

/-- The private-chat context of a touch-activity call. -/
def noCtx : ActivityContext := { chatType := none }

/-- Concrete bulk scenario: five pending submissions with rewards 10, 20, 5,
5, 15 across accounts 1, 2, 3, plus a sixth pending row owned by the absent
account 9. -/
def bulkDB : DB :=
  { emptyDB with
    users := [baseUser 1, baseUser 2, baseUser 3],
    submissions := [baseSubmission 1 1 11 10, baseSubmission 2 2 12 20, baseSubmission 3 1 13 5,
                    baseSubmission 4 3 14 5, baseSubmission 5 2 15 15, baseSubmission 6 9 16 7],
    settings := [("tasksApproved", "0")] }

/- ----------------------- generic lemmas about row updates ----------------------- -/

/-- Finding through a map that does not change whether rows match. -/
theorem find?_map_pres {α : Type} {p : α → Bool} {g : α → α}
    (hp : ∀ a, p (g a) = p a) (l : List α) :
    (l.map g).find? p = (l.find? p).map g := by
  rw [List.find?_map]
  have : p ∘ g = p := funext hp
  rw [this]

/-- Finding in an appended list when the first part has no match. -/
theorem find?_append_right {α : Type} {p : α → Bool} {l₁ l₂ : List α}
    (h : l₁.find? p = none) : (l₁ ++ l₂).find? p = l₂.find? p := by
  rw [List.find?_append, h, Option.none_or]

/-- A list all of whose elements satisfy p is its own takeWhile. -/
theorem takeWhile_eq_self_of_all {α : Type} {p : α → Bool} :
    ∀ l : List α, (∀ a ∈ l, p a = true) → l.takeWhile p = l := by
  intro l h
  induction l with
  | nil => rfl
  | cons a l ih =>
    rw [List.takeWhile_cons_of_pos (h a (List.mem_cons_self a l)),
      ih (fun x hx => h x (List.mem_cons_of_mem a hx))]

/- ----------------------- decimal round trip ----------------------- -/

/-- Each decimal digit prints to a digit character and parses back. -/
theorem digit_char_roundtrip : ∀ d, d < 10 →
    isDigitChar (digitToChar d) = true ∧ charToDigit (digitToChar d) = d := by
  decide

/-- Every character of a printed natural number is a digit character. -/
theorem natDecDigits_all_digits (n : Nat) :
    ∀ c ∈ natDecDigits n, isDigitChar c = true := by
  intro c hc
  unfold natDecDigits at hc
  by_cases h0 : n = 0
  · rw [if_pos h0] at hc
    simp only [List.mem_singleton] at hc
    subst hc; decide
  · rw [if_neg h0] at hc
    rw [List.mem_reverse] at hc
    obtain ⟨d, hd, rfl⟩ := List.mem_map.mp hc
    exact (digit_char_roundtrip d (Nat.digits_lt_base (by norm_num) hd)).1

/-- The printed digits of a natural number are never the empty list. -/
theorem natDecDigits_ne_nil (n : Nat) : natDecDigits n ≠ [] := by
  unfold natDecDigits
  by_cases h0 : n = 0
  · rw [if_pos h0]; simp
  · rw [if_neg h0]
    simp only [ne_eq, List.reverse_eq_nil_iff, List.map_eq_nil_iff]
    exact Nat.digits_ne_nil_iff_ne_zero.mpr h0

/-- Parsing back the printed decimal digits of a natural number. -/
theorem parseLeadingNat_natDecDigits (n : Nat) :
    parseLeadingNat (natDecDigits n) = some n := by
  unfold parseLeadingNat
  rw [takeWhile_eq_self_of_all _ (natDecDigits_all_digits n)]
  rw [if_neg (by simpa [List.isEmpty_iff] using natDecDigits_ne_nil n)]
  congr 1
  unfold natDecDigits
  by_cases h0 : n = 0
  · rw [if_pos h0]; subst h0; decide
  · rw [if_neg h0, List.map_reverse, List.reverse_reverse, List.map_map]
    have : (Nat.digits 10 n).map (charToDigit ∘ digitToChar) = Nat.digits 10 n := by
      rw [List.map_congr_left (g := id) ?_, List.map_id]
      intro d hd
      exact (digit_char_roundtrip d (Nat.digits_lt_base (by norm_num) hd)).2
    rw [this, Nat.ofDigits_digits]

/-- A digit character is never the minus sign. -/
theorem digit_ne_minus {c : Char} (h : isDigitChar c = true) : c ≠ '-' := by
  intro hc; subst hc; exact absurd h (by decide)

/-- JavaScript parseInt reads back exactly what String(n) printed. -/
theorem jsParseInt_intToDecString (m : Int) : jsParseInt (intToDecString m) = some m := by
  rcases lt_or_le m 0 with hneg | hnonneg
  · rw [intToDecString, if_pos hneg]
    show (if '-' = '-' then (parseLeadingNat (natDecDigits m.natAbs)).map (fun n => -(Int.ofNat n))
          else (parseLeadingNat ('-' :: natDecDigits m.natAbs)).map (fun n => Int.ofNat n))
        = some m
    rw [if_pos rfl, parseLeadingNat_natDecDigits, Option.map_some']
    congr 1
    simp only [Int.ofNat_eq_coe]
    omega
  · rw [intToDecString, if_neg (by omega)]
    obtain ⟨c, l', heq⟩ : ∃ c l', natDecDigits m.toNat = c :: l' := by
      rcases h : natDecDigits m.toNat with _ | ⟨c, l'⟩
      · exact absurd h (natDecDigits_ne_nil _)
      · exact ⟨c, l', rfl⟩
    have hc : isDigitChar c = true :=
      natDecDigits_all_digits m.toNat c (by rw [heq]; exact List.mem_cons_self c l')
    show jsParseInt ⟨natDecDigits m.toNat⟩ = some m
    rw [heq]
    show (if c = '-' then (parseLeadingNat l').map (fun n => -(Int.ofNat n))
          else (parseLeadingNat (c :: l')).map (fun n => Int.ofNat n)) = some m
    rw [if_neg (digit_ne_minus hc), ← heq, parseLeadingNat_natDecDigits, Option.map_some']
    congr 1
    simp only [Int.ofNat_eq_coe]
    omega

/- ----------------------- settings lemmas ----------------------- -/

/-- Reading back the key just upserted yields the stored value. -/
theorem setSetting_getSettingRaw_self (db : DB) (k v : String) :
    getSettingRaw (setSetting db k v) k = some v := by
  unfold setSetting getSettingRaw
  by_cases h : (db.settings.find? (fun kv => kv.1 == k)).isSome
  · rw [if_pos h]
    show ((updateWhere (fun kv => kv.1 == k) (fun kv => (kv.1, v)) db.settings).find?
      (fun kv => kv.1 == k)).map (·.2) = some v
    unfold updateWhere
    rw [find?_map_pres (fun kv => by by_cases hkv : (kv.1 == k) = true <;> simp [hkv])]
    obtain ⟨kv0, hkv0⟩ := Option.isSome_iff_exists.mp h
    rw [hkv0]
    have hk : kv0.1 = k := by simpa using List.find?_some hkv0
    simp [hk]
  · rw [if_neg h]
    show ((db.settings ++ [(k, v)]).find? (fun kv => kv.1 == k)).map (·.2) = some v
    rw [find?_append_right (Option.not_isSome_iff_eq_none.mp h)]
    simp

/-- A printed integer is never the empty string. -/
theorem intToDecString_ne_empty (m : Int) : intToDecString m ≠ "" := by
  unfold intToDecString
  by_cases h : m < 0
  · rw [if_pos h]
    intro hcontra
    exact absurd (congrArg String.data hcontra) (by simp)
  · rw [if_neg h]
    intro hcontra
    exact natDecDigits_ne_nil m.toNat (congrArg String.data hcontra)

/-- Integer reading of a counter key right after storing a printed integer. -/
theorem settingIntOr0_setSetting (db : DB) (k : String) (m : Int) :
    settingIntOr0 (setSetting db k (intToDecString m)) k = m := by
  have h1 : getSetting (setSetting db k (intToDecString m)) k = some (intToDecString m) := by
    simp only [getSetting, setSetting_getSettingRaw_self]
    rw [if_neg (intToDecString_ne_empty m)]
  simp only [settingIntOr0, h1, jsParseInt_intToDecString, Option.getD_some]

/- ----------------------- C10 ----------------------- -/

/-- C10: getSetting on a never-set key returns null; after setSetting with a
non-empty string the same string is read back; after setSetting with the empty
string getSetting returns null, indistinguishable from an absent key. -/
theorem settings_get_set_contract (db : DB) (k v : String) :
    (getSettingRaw db k = none → getSetting db k = none) ∧
    (v ≠ "" → getSetting (setSetting db k v) k = some v) ∧
    getSetting (setSetting db k "") k = none := by
  refine ⟨?_, ?_, ?_⟩
  · intro h
    unfold getSetting
    rw [h]
  · intro hv
    unfold getSetting
    rw [setSetting_getSettingRaw_self]
    show (if v = "" then none else some v) = some v
    rw [if_neg hv]
  · unfold getSetting
    rw [setSetting_getSettingRaw_self]
    show (if ("" : String) = "" then none else some "") = none
    rw [if_pos rfl]

/-- Concrete run of the settings round trip. -/
theorem settings_get_set_contract_witness :
    getSetting emptyDB "referralReward" = none ∧
    getSetting (setSetting emptyDB "referralReward" "25") "referralReward" = some "25" ∧
    getSetting (setSetting emptyDB "referralReward" "") "referralReward" = none :=
  ⟨(settings_get_set_contract emptyDB "referralReward" "25").1 (by decide),
   (settings_get_set_contract emptyDB "referralReward" "25").2.1 (by decide),
   (settings_get_set_contract emptyDB "referralReward" "25").2.2⟩

/- ----------------------- C9 ----------------------- -/

/-- C9: while withdrawals are open, a positive requested amount strictly below
the configured minimum or strictly above the configured maximum is rejected
with the out-of-bounds validation error, no withdrawal row is created and the
balance is unchanged (the observable state is the input state). -/
theorem withdraw_bounds_rejected (db : DB) (uid : Nat) (a : ℚ) (now : Int)
    (hopen : getSetting db "withdrawalOpen" = some "true")
    (hpos : 0 < a)
    (hbound : a < settingFloatOr db "minWithdrawal" 50 ∨
      settingFloatOr db "maxWithdrawal" 10000 < a) :
    requestWithdraw db uid (some a) now = .error .amountOutOfBounds ∧
    isValidationError .amountOutOfBounds = true ∧
    requestWithdrawObservable db uid (some a) now = db := by
  have h1 : requestWithdraw db uid (some a) now = .error .amountOutOfBounds := by
    simp [requestWithdraw, hopen, not_le.mpr hpos, hbound]
  refine ⟨h1, rfl, ?_⟩
  unfold requestWithdrawObservable
  rw [h1]

/-- Concrete run of the bound rejection. -/
theorem withdraw_bounds_rejected_witness :
    requestWithdraw withdrawDB 1 (some 5) 99 = .error .amountOutOfBounds ∧
    requestWithdrawObservable withdrawDB 1 (some 5) 99 = withdrawDB :=
  ⟨(withdraw_bounds_rejected withdrawDB 1 5 99 (by decide) (by decide)
      (Or.inl (by decide))).1,
   (withdraw_bounds_rejected withdrawDB 1 5 99 (by decide) (by decide)
      (Or.inl (by decide))).2.2⟩

/- ----------------------- C3 ----------------------- -/

/-- C3: a valid withdrawal request immediately debits exactly the requested
amount and stores a pending request row; updateWithdrawalStatus (the whole of
the whole state change of the admin approve and reject handlers) rewrites only the status
and review fields of withdrawal rows and never touches users, balances or any
other table — in particular rejection credits nothing back. -/
theorem withdraw_debit_and_status_moves_no_balance
    (db : DB) (uid : Nat) (a : ℚ) (now : Int) (u : User)
    (hu : getUser db uid = some u)
    (hopen : getSetting db "withdrawalOpen" = some "true")
    (hpos : 0 < a)
    (hmin : ¬ a < settingFloatOr db "minWithdrawal" 50)
    (hmax : ¬ settingFloatOr db "maxWithdrawal" 10000 < a)
    (hbal : ¬ u.balance < a)
    (hwallet : u.wallet ≠ "") :
    (∃ db', requestWithdraw db uid (some a) now = .ok db' ∧
      balanceOf db' uid = balanceOf db uid - a ∧
      db'.withdrawals = db.withdrawals ++
        [{ id := freshWithdrawalId db, user_id := uid, amount := a, wallet := u.wallet,
           status := "pending", requested_at := now, reviewed_at := none,
           reviewed_by := none }]) ∧
    (∀ dbx wid st rev now2,
      (updateWithdrawalStatus dbx wid st rev now2).users = dbx.users ∧
      (updateWithdrawalStatus dbx wid st rev now2).referrals = dbx.referrals ∧
      (updateWithdrawalStatus dbx wid st rev now2).submissions = dbx.submissions ∧
      (updateWithdrawalStatus dbx wid st rev now2).completed = dbx.completed ∧
      (updateWithdrawalStatus dbx wid st rev now2).settings = dbx.settings ∧
      (∀ uid2, balanceOf (updateWithdrawalStatus dbx wid st rev now2) uid2 = balanceOf dbx uid2) ∧
      (updateWithdrawalStatus dbx wid st rev now2).withdrawals.map withdrawalCore
        = dbx.withdrawals.map withdrawalCore) := by
  constructor
  · have hbound : ¬ (a < settingFloatOr db "minWithdrawal" 50 ∨
        settingFloatOr db "maxWithdrawal" 10000 < a) := not_or.mpr ⟨hmin, hmax⟩
    have hle : ¬ a ≤ 0 := not_le.mpr hpos
    refine ⟨{ db with
        withdrawals := db.withdrawals ++
          [{ id := freshWithdrawalId db, user_id := uid, amount := a, wallet := u.wallet,
             status := "pending", requested_at := now, reviewed_at := none,
             reviewed_by := none }],
        users := setBalance uid (u.balance - a) db.users }, ?_, ?_, rfl⟩
    · simp [requestWithdraw, hu, hopen, hle, hbound, hbal, hwallet]
    · have hu' : db.users.find? (fun x => x.id == uid) = some u := hu
      have hid : u.id = uid := by simpa using List.find?_some hu'
      have hgu : (setBalance uid (u.balance - a) db.users).find?
            (fun x => x.id == uid) = some { u with balance := u.balance - a } := by
        unfold setBalance updateWhere
        rw [find?_map_pres (fun x => by by_cases hx : (x.id == uid) = true <;> simp [hx])]
        rw [hu']
        simp [hid]
      show balanceOf _ uid = balanceOf db uid - a
      unfold balanceOf
      rw [show getUser { db with
          withdrawals := db.withdrawals ++
            [{ id := freshWithdrawalId db, user_id := uid, amount := a, wallet := u.wallet,
               status := "pending", requested_at := now, reviewed_at := none,
               reviewed_by := none }],
          users := setBalance uid (u.balance - a) db.users } uid
        = some { u with balance := u.balance - a } from hgu, hu]
  · intro dbx wid st rev now2
    refine ⟨rfl, rfl, rfl, rfl, rfl, fun uid2 => rfl, ?_⟩
    unfold updateWithdrawalStatus updateWhere
    rw [List.map_map]
    apply List.map_congr_left
    intro w _
    by_cases hw : w.id = wid <;> simp [hw, withdrawalCore]

/-- Concrete run of the withdrawal pre-authorization debit: balance 100,
request 60, bounds 50..10000, withdrawals open. -/
theorem withdraw_debit_witness :
    (∃ db', requestWithdraw withdrawDB 1 (some 60) 5 = .ok db' ∧
      balanceOf db' 1 = balanceOf withdrawDB 1 - 60) ∧
    (updateWithdrawalStatus withdrawDB 1 "rejected" (some 9) 6).users = withdrawDB.users := by
  have h := withdraw_debit_and_status_moves_no_balance withdrawDB 1 60 5 (baseUser 1)
    (by decide) (by decide) (by decide) (by decide) (by decide) (by decide) (by decide)
  obtain ⟨db', h1, h2, _⟩ := h.1
  exact ⟨⟨db', h1, h2⟩, (h.2 withdrawDB 1 "rejected" (some 9) 6).1⟩

/- ----------------------- more row-update lemmas ----------------------- -/

/-- Finding the matching row after an UPDATE of exactly the matching rows. -/
theorem find?_updateWhere_found {α : Type} {p : α → Bool} {f : α → α}
    (hf : ∀ a, p (f a) = p a) {l : List α} {a0 : α} (h : l.find? p = some a0) :
    (updateWhere p f l).find? p = some (f a0) := by
  unfold updateWhere
  rw [find?_map_pres (fun a => by by_cases ha : p a <;> simp [ha, hf a]), h]
  have ha0 : p a0 = true := List.find?_some h
  simp [ha0]

/-- Finding after an UPDATE when no matching row exists. -/
theorem find?_updateWhere_none {α : Type} {p : α → Bool} {f : α → α}
    (hf : ∀ a, p (f a) = p a) {l : List α} (h : l.find? p = none) :
    (updateWhere p f l).find? p = none := by
  unfold updateWhere
  rw [find?_map_pres (fun a => by by_cases ha : p a <;> simp [ha, hf a]), h]
  rfl

/-- A map that fixes every row matching q does not change what find? q sees. -/
theorem find?_map_invariant {α : Type} {q : α → Bool} {g : α → α}
    (hq : ∀ a, q (g a) = q a) (hid : ∀ a, q a = true → g a = a) (l : List α) :
    (l.map g).find? q = l.find? q := by
  rw [find?_map_pres hq]
  cases h : l.find? q with
  | none => rfl
  | some a => simp [hid a (List.find?_some h)]

/- ----------------------- projection lemmas for the small writes ----------------------- -/

/-- insertCompletedTask only touches the completed_tasks table. -/
theorem insertCompletedTask_proj (db : DB) (uid tid : Nat) (now : Int) (reward : Option ℚ) :
    (insertCompletedTask db uid tid now reward).users = db.users ∧
    (insertCompletedTask db uid tid now reward).submissions = db.submissions ∧
    (insertCompletedTask db uid tid now reward).settings = db.settings ∧
    (insertCompletedTask db uid tid now reward).referrals = db.referrals ∧
    (insertCompletedTask db uid tid now reward).withdrawals = db.withdrawals := by
  unfold insertCompletedTask
  split <;> exact ⟨rfl, rfl, rfl, rfl, rfl⟩

/-- setSetting only touches the bot_settings table. -/
theorem setSetting_proj (db : DB) (k v : String) :
    (setSetting db k v).users = db.users ∧
    (setSetting db k v).submissions = db.submissions ∧
    (setSetting db k v).completed = db.completed ∧
    (setSetting db k v).referrals = db.referrals ∧
    (setSetting db k v).withdrawals = db.withdrawals := by
  unfold setSetting
  split <;> exact ⟨rfl, rfl, rfl, rfl, rfl⟩

/-- The users column of the committed approval state is the single balance
write, and its submissions column is the single status write. -/
theorem approveCommitState_proj (db : DB) (sid rev : Nat) (now : Int)
    (sub : Submission) (u : User) :
    (approveCommitState db sid rev now sub u).users
      = setBalance u.id (u.balance + sub.task_reward.getD 0) db.users ∧
    (approveCommitState db sid rev now sub u).submissions
      = updateWhere (fun s => s.id == sid) (approveSubmissionUpdate rev now) db.submissions := by
  unfold approveCommitState
  constructor
  · rw [(setSetting_proj _ _ _).1, (insertCompletedTask_proj _ _ _ _ _).1]
  · rw [(setSetting_proj _ _ _).2.1, (insertCompletedTask_proj _ _ _ _ _).2.1]

/- ----------------------- C1 ----------------------- -/

/-- C1: approving a pending submission succeeds, committing approveCommitState,
which credits the owning account by exactly the snapshotted reward; repeating
the call on the same id fails with the not-pending InvalidState error, and the
rolled back second call leaves every part of the state exactly as it was after
the first call, so the balance is credited exactly once. -/
theorem approve_twice_credits_once
    (db : DB) (sid rev rev2 : Nat) (now now2 : Int) (sub : Submission) (u : User)
    (hsub : getSubmissionById db sid = some sub)
    (hpend : sub.status = "pending")
    (hu : getUser db sub.user_id = some u) :
    approveSubmissionAtomic noFail db sid rev now
      = .ok (approveCommitState db sid rev now sub u, u.id, u.balance + sub.task_reward.getD 0) ∧
    u.id = sub.user_id ∧
    balanceOf (approveCommitState db sid rev now sub u) sub.user_id
      = balanceOf db sub.user_id + sub.task_reward.getD 0 ∧
    approveSubmissionAtomic noFail (approveCommitState db sid rev now sub u) sid rev2 now2
      = .error .submissionNotPending ∧
    approveObservable noFail (approveCommitState db sid rev now sub u) sid rev2 now2
      = approveCommitState db sid rev now sub u := by
  have hsub' : db.submissions.find? (fun s => s.id == sid) = some sub := hsub
  have hu' : db.users.find? (fun x => x.id == sub.user_id) = some u := hu
  have hiu : u.id = sub.user_id := by simpa using List.find?_some hu'
  have hrun : approveSubmissionAtomic noFail db sid rev now
      = .ok (approveCommitState db sid rev now sub u, u.id, u.balance + sub.task_reward.getD 0) := by
    simp only [approveSubmissionAtomic, hsub, hu]
    rw [if_neg (by simp [hpend])]
    rfl
  -- the second call reads the already approved submission row
  have hsub2 : getSubmissionById (approveCommitState db sid rev now sub u) sid
      = some (approveSubmissionUpdate rev now sub) := by
    show (approveCommitState db sid rev now sub u).submissions.find? (fun s => s.id == sid)
      = some (approveSubmissionUpdate rev now sub)
    rw [(approveCommitState_proj db sid rev now sub u).2]
    exact find?_updateWhere_found (p := fun s : Submission => s.id == sid)
      (f := approveSubmissionUpdate rev now) (fun s => rfl) hsub'
  have hfail : approveSubmissionAtomic noFail (approveCommitState db sid rev now sub u) sid rev2 now2
      = .error .submissionNotPending := by
    simp only [approveSubmissionAtomic, hsub2]
    rw [if_pos (by simp [approveSubmissionUpdate])]
  refine ⟨hrun, hiu, ?_, hfail, ?_⟩
  · have hgu2 : getUser (approveCommitState db sid rev now sub u) sub.user_id
        = some { u with balance := u.balance + sub.task_reward.getD 0 } := by
      show (approveCommitState db sid rev now sub u).users.find? (fun x => x.id == sub.user_id)
        = some { u with balance := u.balance + sub.task_reward.getD 0 }
      rw [(approveCommitState_proj db sid rev now sub u).1]
      unfold setBalance
      rw [show (fun x : User => x.id == u.id) = (fun x : User => x.id == sub.user_id) by
        rw [hiu]]
      exact find?_updateWhere_found (p := fun x : User => x.id == sub.user_id)
        (f := fun x : User => { x with balance := u.balance + sub.task_reward.getD 0 })
        (fun x => rfl) hu'
    unfold balanceOf
    rw [hgu2, hu]
  · unfold approveObservable
    rw [hfail]

/-- Concrete run of the double approval law. -/
theorem approve_twice_witness :
    approveSubmissionAtomic noFail approveDB 5 9 7
      = .ok (approveCommitState approveDB 5 9 7 (baseSubmission 5 1 3 10) (baseUser 1),
             (baseUser 1).id,
             (baseUser 1).balance + (baseSubmission 5 1 3 10).task_reward.getD 0) ∧
    approveSubmissionAtomic noFail
        (approveCommitState approveDB 5 9 7 (baseSubmission 5 1 3 10) (baseUser 1)) 5 8 11
      = .error .submissionNotPending := by
  have h := approve_twice_credits_once approveDB 5 9 8 7 11 (baseSubmission 5 1 3 10)
    (baseUser 1) (by decide) (by decide) (by decide)
  exact ⟨h.1, h.2.2.2.1⟩

/- ----------------------- C2 ----------------------- -/

/-- C2: whenever any step of the approval transaction fails — submission
missing, submission not pending, owning account missing, or a forced failure of
the completed-task insert or the counter update — the transaction rolls back:
the caller observes exactly the input state (so no status change, no balance
credit, no completed-task record and no counter change from that call is
visible), and the originating error is the one propagated. -/
theorem approve_rollback_on_error (ff : FailFlags) (db : DB) (sid rev : Nat) (now : Int) :
    (∀ e, approveSubmissionAtomic ff db sid rev now = .error e →
      approveObservable ff db sid rev now = db) ∧
    (getSubmissionById db sid = none →
      approveSubmissionAtomic ff db sid rev now = .error .submissionNotFound) ∧
    (∀ sub, getSubmissionById db sid = some sub → sub.status ≠ "pending" →
      approveSubmissionAtomic ff db sid rev now = .error .submissionNotPending) ∧
    (∀ sub, getSubmissionById db sid = some sub → sub.status = "pending" →
      getUser db sub.user_id = none →
      approveSubmissionAtomic ff db sid rev now = .error .userNotFound) ∧
    (∀ sub u, getSubmissionById db sid = some sub → sub.status = "pending" →
      getUser db sub.user_id = some u → ff.failCompletedInsert = true →
      approveSubmissionAtomic ff db sid rev now = .error .completedInsertFailure) ∧
    (∀ sub u, getSubmissionById db sid = some sub → sub.status = "pending" →
      getUser db sub.user_id = some u → ff.failCompletedInsert = false →
      ff.failCounterUpdate = true →
      approveSubmissionAtomic ff db sid rev now = .error .counterUpdateFailure) := by
  refine ⟨?_, ?_, ?_, ?_, ?_, ?_⟩
  · intro e he
    unfold approveObservable
    rw [he]
  · intro h
    simp only [approveSubmissionAtomic, h]
  · intro sub hsub hnp
    simp only [approveSubmissionAtomic, hsub]
    rw [if_pos hnp]
  · intro sub hsub hpend hnou
    simp only [approveSubmissionAtomic, hsub, hnou]
    rw [if_neg (by simp [hpend])]
  · intro sub u hsub hpend hu hfc
    simp only [approveSubmissionAtomic, hsub, hu]
    rw [if_neg (by simp [hpend])]
    simp [hfc]
  · intro sub u hsub hpend hu hfc hfk
    simp only [approveSubmissionAtomic, hsub, hu]
    rw [if_neg (by simp [hpend])]
    simp [hfc, hfk]

/-- Concrete rollback run: the completed-task insert is forced to fail on a
pending submission with an existing owner, the caller observes the unchanged
state and receives that error. -/
theorem approve_rollback_witness :
    approveSubmissionAtomic ⟨true, false⟩ approveDB 5 9 7 = .error .completedInsertFailure ∧
    approveObservable ⟨true, false⟩ approveDB 5 9 7 = approveDB := by
  have h := approve_rollback_on_error ⟨true, false⟩ approveDB 5 9 7
  have herr := h.2.2.2.2.1 (baseSubmission 5 1 3 10) (baseUser 1)
    (by decide) (by decide) (by decide) rfl
  exact ⟨herr, h.1 .completedInsertFailure herr⟩

/- ----------------------- C4 ----------------------- -/

/-- Reading any user row through the verified-flag write. -/
theorem getUser_markVerified (db : DB) (x uid : Nat) :
    getUser (markVerified db x) uid
      = (getUser db uid).map (fun u => if u.id == x then { u with verified := true } else u) := by
  show (updateWhere (fun u => u.id == x) (fun u => { u with verified := true }) db.users).find?
      (fun u => u.id == uid) = _
  unfold updateWhere
  exact find?_map_pres (fun a => by by_cases h : (a.id == x) = true <;> simp [h]) db.users

/-- Reading any user row through an absolute balance write. -/
theorem find?_setBalance (l : List User) (bid : Nat) (nb : ℚ) (uid : Nat) :
    (setBalance bid nb l).find? (fun u => u.id == uid)
      = (l.find? (fun u => u.id == uid)).map
          (fun u => if u.id == bid then { u with balance := nb } else u) := by
  unfold setBalance updateWhere
  exact find?_map_pres (fun a => by by_cases h : (a.id == bid) = true <;> simp [h]) l

/-- The verified-flag write changes no balance. -/
theorem balanceOf_markVerified (db : DB) (x uid : Nat) :
    balanceOf (markVerified db x) uid = balanceOf db uid := by
  unfold balanceOf
  rw [getUser_markVerified]
  cases h : getUser db uid with
  | none => rfl
  | some u => by_cases hx : u.id = x <;> simp [hx]

/-- addReferralEdge only touches the referrals table. -/
theorem addReferralEdge_proj (db : DB) (a b : Nat) :
    (addReferralEdge db a b).users = db.users ∧
    (addReferralEdge db a b).submissions = db.submissions ∧
    (addReferralEdge db a b).completed = db.completed ∧
    (addReferralEdge db a b).settings = db.settings ∧
    (addReferralEdge db a b).withdrawals = db.withdrawals := by
  unfold addReferralEdge
  split <;> exact ⟨rfl, rfl, rfl, rfl, rfl⟩

/-- The inserted referral edge is present afterwards, and inserting an already
present edge changes nothing. -/
theorem addReferralEdge_mem (db : DB) (a b : Nat) :
    (a, b) ∈ (addReferralEdge db a b).referrals ∧
    ((a, b) ∈ db.referrals → (addReferralEdge db a b).referrals = db.referrals) := by
  unfold addReferralEdge
  by_cases h : (db.referrals.any (fun e => e.1 == a && e.2 == b)) = true
  · rw [if_pos h]
    refine ⟨?_, fun _ => rfl⟩
    obtain ⟨e, he, hee⟩ := List.any_eq_true.mp h
    simp only [Bool.and_eq_true, beq_iff_eq] at hee
    have : e = (a, b) := by
      obtain ⟨x, y⟩ := e
      simp only at hee
      simp [hee.1, hee.2]
    exact this ▸ he
  · rw [if_neg h]
    constructor
    · simp
    · intro hmem
      exact absurd (List.any_eq_true.mpr ⟨(a, b), hmem, by simp⟩) h

/-- C4: verifyUserAndReward is a no-op success on an already verified account;
on an unverified account it sets verified, and exactly when a referrer row
exists it credits that referrer by the current referralReward setting value and
inserts the referral edge idempotently; with no referrer reference or a missing
referrer row the verification still commits with no balance moved. -/
theorem verifyAndReward_spec (db : DB) (refereeId : Nat) :
    (getUser db refereeId = none →
      verifyUserAndReward db refereeId = .error .refereeNotFound) ∧
    (∀ u, getUser db refereeId = some u → u.verified = true →
      verifyUserAndReward db refereeId = .ok (db, .alreadyVerified)) ∧
    (∀ u, getUser db refereeId = some u → u.verified = false → u.referred_by = none →
      verifyUserAndReward db refereeId = .ok (markVerified db refereeId, .success)) ∧
    (∀ u rid, getUser db refereeId = some u → u.verified = false → u.referred_by = some rid →
      getUser db rid = none →
      verifyUserAndReward db refereeId = .ok (markVerified db refereeId, .success)) ∧
    (∀ uid2, balanceOf (markVerified db refereeId) uid2 = balanceOf db uid2) ∧
    (∀ u, getUser db refereeId = some u →
      ∃ u', getUser (markVerified db refereeId) refereeId = some u' ∧ u'.verified = true) ∧
    (∀ u rid r, getUser db refereeId = some u → u.verified = false → u.referred_by = some rid →
      getUser db rid = some r →
      ∃ db', verifyUserAndReward db refereeId = .ok (db', .success) ∧
        balanceOf db' rid = balanceOf db rid + referralRewardValue db ∧
        (∃ u', getUser db' refereeId = some u' ∧ u'.verified = true) ∧
        (rid, refereeId) ∈ db'.referrals ∧
        ((rid, refereeId) ∈ db.referrals → db'.referrals = db.referrals)) := by
  refine ⟨?_, ?_, ?_, ?_, ?_, ?_, ?_⟩
  · intro h
    simp only [verifyUserAndReward, h]
  · intro u hu hv
    simp only [verifyUserAndReward, hu]
    rw [if_pos hv]
  · intro u hu hv hr
    simp only [verifyUserAndReward, hu, hr]
    rw [if_neg (by simp [hv])]
  · intro u rid hu hv hr hrn
    simp only [verifyUserAndReward, hu, hr, getUser_markVerified, hrn]
    rw [if_neg (by simp [hv])]
    rfl
  · exact fun uid2 => balanceOf_markVerified db refereeId uid2
  · intro u hu
    rw [getUser_markVerified, hu]
    have hid : u.id = refereeId := by
      have hu' : db.users.find? (fun x => x.id == refereeId) = some u := hu
      simpa using List.find?_some hu'
    exact ⟨_, rfl, by simp [hid]⟩
  · intro u rid r hu hv hr hrr
    have hrid : r.id = rid := by
      have hrr' : db.users.find? (fun x => x.id == rid) = some r := hrr
      simpa using List.find?_some hrr'
    have huid : u.id = refereeId := by
      have hu' : db.users.find? (fun x => x.id == refereeId) = some u := hu
      simpa using List.find?_some hu'
    set referrer : User := if (r.id == refereeId) = true then { r with verified := true } else r
      with href
    set nb : ℚ := referrer.balance + referralRewardValue db with hnb
    set db1 : DB := markVerified db refereeId with hdb1
    set db2 : DB := { db1 with users := setBalance rid nb db1.users } with hdb2
    set db3 : DB := addReferralEdge db2 rid refereeId with hdb3
    have hrefb : referrer.balance = r.balance := by
      rw [href]
      by_cases hc : r.id = refereeId <;> simp [hc]
    have hg1 : getUser db1 rid = some referrer := by
      rw [hdb1, getUser_markVerified, hrr, href]
      by_cases hc : r.id = refereeId <;> simp [hc]
    have hrun : verifyUserAndReward db refereeId = .ok (db3, .success) := by
      simp only [verifyUserAndReward, hu, hg1, hr]
      rw [if_neg (by simp [hv])]
    refine ⟨db3, hrun, ?_, ?_, ?_, ?_⟩
    · have hfind : getUser db3 rid = some { referrer with balance := nb } := by
        show db3.users.find? (fun x => x.id == rid) = _
        rw [hdb3, (addReferralEdge_proj db2 rid refereeId).1, hdb2]
        show (setBalance rid nb db1.users).find? (fun x => x.id == rid) = _
        rw [find?_setBalance]
        rw [show db1.users.find? (fun x => x.id == rid) = some referrer from hg1]
        have hrefid : referrer.id = rid := by
          rw [href]
          by_cases hc : r.id = refereeId <;> simp [hc] <;> omega
        simp [hrefid]
      simp only [balanceOf, hfind, hrr]
      rw [hnb, hrefb]
    · have hg2 : getUser db1 refereeId = some { u with verified := true } := by
        rw [hdb1, getUser_markVerified, hu]
        simp [huid]
      have hfind : getUser db3 refereeId
          = some (if ({ u with verified := true } : User).id == rid
              then { { u with verified := true } with balance := nb }
              else { u with verified := true }) := by
        show db3.users.find? (fun x => x.id == refereeId) = _
        rw [hdb3, (addReferralEdge_proj db2 rid refereeId).1, hdb2]
        show (setBalance rid nb db1.users).find? (fun x => x.id == refereeId) = _
        rw [find?_setBalance]
        rw [show db1.users.find? (fun x => x.id == refereeId)
          = some { u with verified := true } from hg2]
        rfl
      refine ⟨_, hfind, ?_⟩
      by_cases hc : u.id = rid <;> simp [hc]
    · have : db3.referrals = (addReferralEdge db2 rid refereeId).referrals := by rw [hdb3]
      rw [this]
      exact (addReferralEdge_mem db2 rid refereeId).1
    · intro hmem
      have hm2 : (rid, refereeId) ∈ db2.referrals := by
        rw [hdb2]
        show (rid, refereeId) ∈ db1.referrals
        rw [hdb1]
        exact hmem
      have : db3.referrals = db2.referrals := (addReferralEdge_mem db2 rid refereeId).2 hm2
      rw [hdb3] at this ⊢
      rw [this, hdb2]
      show db1.referrals = db.referrals
      rw [hdb1]
      rfl

/-- Concrete verification run: verifying account 1 again is a no-op success,
verifying account 2 credits account 1 by the stored reward and records the
referral edge. -/
theorem verifyAndReward_witness :
    verifyUserAndReward verifyDB 1 = .ok (verifyDB, .alreadyVerified) ∧
    (∃ db', verifyUserAndReward verifyDB 2 = .ok (db', .success) ∧
      balanceOf db' 1 = balanceOf verifyDB 1 + referralRewardValue verifyDB ∧
      (1, 2) ∈ db'.referrals) := by
  obtain ⟨db', h1, h2, _, h4, _⟩ := (verifyAndReward_spec verifyDB 2).2.2.2.2.2.2
    { baseUser 2 with referred_by := some 1 } 1 { baseUser 1 with verified := true }
    (by decide) (by decide) (by decide) (by decide)
  exact ⟨(verifyAndReward_spec verifyDB 1).2.1 { baseUser 1 with verified := true }
      (by decide) (by decide),
    ⟨db', h1, h2, h4⟩⟩

/- ----------------------- C6 ----------------------- -/

/-- C6: analyzeReferralPattern returns the vacuously perfect result for zero
referrals; otherwise percentage is realCount divided by the referral total
times 100 and the star rating is its band (5 stars at 80, 4 at 60, 3 at 40,
2 at 20, else 1); real and suspicious counts partition the referrals by the
5-point cutoff, a referral whose account row is missing is never real, and a
referral with no messages, zero activity score, no wallet, unverified, younger
than one hour and with no completed task scores below the cutoff. -/
theorem analyzeReferralPattern_spec (db : DB) (now : Int) (uid : Nat) :
    (getUserReferrals db uid = [] →
      analyzeReferralPattern db now uid = ⟨0, 0, "⭐⭐⭐⭐⭐", 100⟩) ∧
    (getUserReferrals db uid ≠ [] →
      (analyzeReferralPattern db now uid).percentage
        = ((analyzeReferralPattern db now uid).realRefs : ℚ)
            / ((getUserReferrals db uid).length : ℚ) * 100 ∧
      (analyzeReferralPattern db now uid).score
        = ratingOf (analyzeReferralPattern db now uid).percentage) ∧
    (analyzeReferralPattern db now uid).realRefs
      = ((getUserReferrals db uid).filter (isRealReferral db now)).length ∧
    (analyzeReferralPattern db now uid).suspiciousRefs
      = ((getUserReferrals db uid).filter (fun x => !isRealReferral db now x)).length ∧
    (∀ rid, getUser db rid = none → isRealReferral db now rid = false) ∧
    (∀ p : ℚ, (80 ≤ p → ratingOf p = "⭐⭐⭐⭐⭐") ∧ (60 ≤ p → p < 80 → ratingOf p = "⭐⭐⭐⭐") ∧
      (40 ≤ p → p < 60 → ratingOf p = "⭐⭐⭐") ∧ (20 ≤ p → p < 40 → ratingOf p = "⭐⭐") ∧
      (p < 20 → ratingOf p = "⭐")) ∧
    (∀ v : User, v.message_count = 0 → v.activity_score = 0 → v.wallet = "" →
      v.verified = false → ((now - v.registered_at : Int) : ℚ) / (1000 * 60 * 60) < 1 →
      getUserCompletedTasks db v.id = [] →
      referralScore db now v < 5 ∧
      (∀ rid, getUser db rid = some v → isRealReferral db now rid = false)) := by
  refine ⟨?_, ?_, ?_, ?_, ?_, ?_, ?_⟩
  · intro h
    unfold analyzeReferralPattern
    rw [if_pos (by simp [h])]
  · intro h
    have hne : (getUserReferrals db uid).isEmpty = false := by
      simpa [List.isEmpty_iff] using h
    constructor
    · unfold analyzeReferralPattern
      rw [if_neg (by simp [hne])]
      have hlen : 0 < (getUserReferrals db uid).length := List.length_pos.mpr h
      simp only [if_pos hlen]
    · unfold analyzeReferralPattern
      rw [if_neg (by simp [hne])]
  · unfold analyzeReferralPattern
    by_cases h : (getUserReferrals db uid).isEmpty
    · rw [if_pos h]
      rw [List.isEmpty_iff.mp h]
      rfl
    · rw [if_neg h]
  · unfold analyzeReferralPattern
    by_cases h : (getUserReferrals db uid).isEmpty
    · rw [if_pos h]
      rw [List.isEmpty_iff.mp h]
      rfl
    · rw [if_neg h]
  · intro rid h
    unfold isRealReferral
    rw [h]
  · intro p
    refine ⟨?_, ?_, ?_, ?_, ?_⟩ <;> intros <;> unfold ratingOf <;>
      repeat first
        | (rw [if_pos (by linarith)])
        | (rw [if_neg (by linarith)])
  · intro v h1 h2 h3 h4 h5 h6
    have hscore : referralScore db now v < 5 := by
      unfold referralScore
      rw [h1, h2, h3, h4, h6]
      split_ifs <;> norm_num
      all_goals split_ifs <;> norm_num
    refine ⟨hscore, ?_⟩
    intro rid hrid
    unfold isRealReferral
    rw [hrid]
    simp only [ge_iff_le, decide_eq_false_iff_not, not_le]
    exact hscore

/-- Concrete referral analysis runs: an account with no referrals is vacuously
perfect, and the fresh inactive referral of account 2 is counted suspicious. -/
theorem analyzeReferralPattern_witness :
    analyzeReferralPattern refDB 0 7 = ⟨0, 0, "⭐⭐⭐⭐⭐", 100⟩ ∧
    isRealReferral refDB 0 1 = false ∧
    ratingOf 100 = "⭐⭐⭐⭐⭐" := by
  refine ⟨(analyzeReferralPattern_spec refDB 0 7).1 (by decide), ?_, ?_⟩
  · have h2 := (analyzeReferralPattern_spec refDB 0 2).2.2.2.2.2.2
      { baseUser 1 with wallet := "" } (by decide) (by decide) (by decide) (by decide)
      (by norm_num [baseUser]) (by decide)
    exact h2.2 1 (by decide)
  · exact ((analyzeReferralPattern_spec refDB 0 7).2.2.2.2.2.1 100).1 (by norm_num)

/- ----------------------- C7 ----------------------- -/

/-- C7: a touch-activity ensure call on an existing account rewrites exactly
that row with the recomputed one, which always carries todays date as
last_activity_date; with no prior activity date both streaks become 1; a prior
date exactly one day back increments the current streak and raises the longest
to the maximum (so the longest never decreases); a gap of more than one day
resets the current streak to 1 and keeps the longest; the same day changes
neither streak. -/
theorem ensureUser_streak_spec
    (db : DB) (uid : Nat) (uname : Option String) (ctx : ActivityContext)
    (now today : Int) (u : User) (hu : getUser db uid = some u) :
    ∃ u', ensureUser db uid uname true ctx now today
        = ({ db with users := updateWhere (fun x => x.id == uid) (fun _ => u') db.users }, u') ∧
      getUser (ensureUser db uid uname true ctx now today).1 uid = some u' ∧
      u'.last_activity_date = some today ∧
      (u.last_activity_date = none → u'.current_streak = 1 ∧ u'.longest_streak = 1) ∧
      (∀ d, u.last_activity_date = some d → today - d = 1 →
        u'.current_streak = u.current_streak + 1 ∧
        u'.longest_streak = max (u.current_streak + 1) u.longest_streak ∧
        u.longest_streak ≤ u'.longest_streak) ∧
      (∀ d, u.last_activity_date = some d → 1 < today - d →
        u'.current_streak = 1 ∧ u'.longest_streak = u.longest_streak) ∧
      (∀ d, u.last_activity_date = some d → today - d = 0 →
        u'.current_streak = u.current_streak ∧ u'.longest_streak = u.longest_streak) := by
  have hu' : db.users.find? (fun x => x.id == uid) = some u := hu
  have hid : u.id = uid := by simpa using List.find?_some hu'
  have hrowid : (ensureUserRow uname true ctx now today u).id = u.id := by
    rcases hl : u.last_activity_date with _ | d <;>
      simp only [ensureUserRow, hl] <;> split_ifs <;> rfl
  refine ⟨ensureUserRow uname true ctx now today u, ?_, ?_, ?_, ?_, ?_, ?_, ?_⟩
  · simp only [ensureUser, hu]
  · simp only [ensureUser, hu]
    show (updateWhere (fun x => x.id == uid)
        (fun _ => ensureUserRow uname true ctx now today u) db.users).find?
        (fun x => x.id == uid) = _
    have hp : ∀ a : User,
        ((if (a.id == uid) = true then ensureUserRow uname true ctx now today u else a).id == uid)
          = (a.id == uid) := by
      intro a
      by_cases hx : (a.id == uid) = true
      · simp [hx, hrowid, hid]
      · simp [hx]
    unfold updateWhere
    rw [find?_map_pres hp db.users, hu']
    simp [hid, hrowid]
  · rcases hl : u.last_activity_date with _ | d <;>
      simp only [ensureUserRow, hl] <;> split_ifs <;> rfl
  · intro hnone
    simp only [ensureUserRow, hnone]
    split_ifs <;> exact ⟨rfl, rfl⟩
  · intro d hd h1
    simp only [ensureUserRow, hd, h1]
    split_ifs <;> exact ⟨rfl, rfl, le_max_right _ _⟩
  · intro d hd hgt
    simp only [ensureUserRow, hd]
    rw [if_neg (show ¬(today - d = 1) from by omega),
      if_pos (show today - d > 1 from hgt)]
    exact ⟨rfl, rfl⟩
  · intro d hd h0
    simp only [ensureUserRow, hd]
    rw [if_neg (show ¬(today - d = 1) from by omega),
      if_neg (show ¬(today - d > 1) from by omega)]
    exact ⟨rfl, rfl⟩

/-- Concrete touch-activity run on day 100: the current streak increments to 4,
the longest stays 5, and the activity date becomes day 100. -/
theorem ensureUser_streak_witness :
    ∃ u', getUser (ensureUser streakDB 1 none true noCtx 7 100).1 1 = some u' ∧
      u'.current_streak = 4 ∧ u'.longest_streak = 5 ∧ u'.last_activity_date = some 100 := by
  obtain ⟨u', hA, hB, hC, hD, hE, hF, hG⟩ :=
    ensureUser_streak_spec streakDB 1 none noCtx 7 100 streakUser (by decide)
  obtain ⟨hcur, hlong, _⟩ := hE 99 rfl (by decide)
  exact ⟨u', hB, by rw [hcur]; decide, by rw [hlong]; decide, hC⟩

/- ----------------------- C8 ----------------------- -/

/-- C8: updateEngagementTier maps the final weighted score, inactivity penalty
included, to its band by descending thresholds — Elite at 70, Active at 50,
Regular at 30, Dormant at 15, else Ghost — and persists the tier together with
the update timestamp on the account row; a score of exactly 70 is Elite and
69.9 is Active. -/
theorem updateEngagementTier_spec (db : DB) (uid : Nat) (now : Int) :
    (getUser db uid = none → updateEngagementTier db uid now = (db, none)) ∧
    (∀ u, getUser db uid = some u →
      ∃ u', getUser (updateEngagementTier db uid now).1 uid = some u' ∧
        u'.engagement_tier = tierOfScore (engagementScore db uid now) ∧
        u'.tier_updated_at = some now ∧
        (updateEngagementTier db uid now).2
          = some (tierOfScore (engagementScore db uid now), engagementScore db uid now)) ∧
    (∀ q : ℚ, (70 ≤ q → tierOfScore q = "Elite") ∧
      (50 ≤ q → q < 70 → tierOfScore q = "Active") ∧
      (30 ≤ q → q < 50 → tierOfScore q = "Regular") ∧
      (15 ≤ q → q < 30 → tierOfScore q = "Dormant") ∧
      (q < 15 → tierOfScore q = "Ghost")) ∧
    tierOfScore 70 = "Elite" ∧ tierOfScore ((699 : ℚ) / 10) = "Active" := by
  have hbands : ∀ q : ℚ, (70 ≤ q → tierOfScore q = "Elite") ∧
      (50 ≤ q → q < 70 → tierOfScore q = "Active") ∧
      (30 ≤ q → q < 50 → tierOfScore q = "Regular") ∧
      (15 ≤ q → q < 30 → tierOfScore q = "Dormant") ∧
      (q < 15 → tierOfScore q = "Ghost") := by
    intro q
    refine ⟨?_, ?_, ?_, ?_, ?_⟩ <;> intros <;> unfold tierOfScore <;>
      repeat first
        | (rw [if_pos (by linarith)])
        | (rw [if_neg (by linarith)])
  refine ⟨?_, ?_, hbands, (hbands 70).1 (by norm_num),
    (hbands ((699 : ℚ) / 10)).2.1 (by norm_num) (by norm_num)⟩
  · intro h
    simp only [updateEngagementTier, h]
  · intro u hu
    have hu' : db.users.find? (fun x => x.id == uid) = some u := hu
    refine ⟨tierRowUpdate (tierOfScore (engagementScore db uid now)) now u, ?_, rfl, rfl, ?_⟩
    · simp only [updateEngagementTier, hu]
      show (updateWhere (fun x => x.id == uid)
          (tierRowUpdate (tierOfScore (engagementScore db uid now)) now) db.users).find?
          (fun x => x.id == uid) = _
      exact find?_updateWhere_found (p := fun x : User => x.id == uid)
        (f := tierRowUpdate (tierOfScore (engagementScore db uid now)) now)
        (fun a => rfl) hu'
    · simp only [updateEngagementTier, hu]

/-- Concrete tier update on the sample account: the tier and the timestamp are
persisted as the band of the computed score. -/
theorem updateEngagementTier_witness :
    ∃ u', getUser (updateEngagementTier withdrawDB 1 0).1 1 = some u' ∧
      u'.engagement_tier = tierOfScore (engagementScore withdrawDB 1 0) ∧
      u'.tier_updated_at = some 0 := by
  obtain ⟨u', h1, h2, h3, _⟩ := (updateEngagementTier_spec withdrawDB 1 0).2.1
    (baseUser 1) (by decide)
  exact ⟨u', h1, h2, h3⟩

/- ----------------------- C5: step lemmas ----------------------- -/

/-- A bulk-approval step on a row whose owner is gone is a no-op. -/
theorem bulkStep_skip (rev : Nat) (now : Int) (dbc : DB) (n : Nat) (s : Submission)
    (h : getUser dbc s.user_id = none) :
    bulkApproveStep rev now (dbc, n) s = (dbc, n) := by
  simp only [bulkApproveStep, h]

/-- A bulk-approval step on a row whose owner u exists: mark the row approved,
write the credited balance, insert the completed-task record, count it. -/
theorem bulkStep_run (rev : Nat) (now : Int) (dbc : DB) (n : Nat) (s : Submission) (u : User)
    (h : getUser dbc s.user_id = some u) :
    bulkApproveStep rev now (dbc, n) s =
      (insertCompletedTask
        { dbc with
          submissions := updateWhere (fun x => x.id == s.id)
            (approveSubmissionUpdate rev now) dbc.submissions
          users := setBalance u.id (u.balance + s.task_reward.getD 0) dbc.users }
        u.id s.task_id now s.task_reward,
       n + 1) := by
  simp only [bulkApproveStep, h]

/-- A bulk-approval step never touches the settings table. -/
theorem bulkStep_settings (rev : Nat) (now : Int) (dbc : DB) (n : Nat) (s : Submission) :
    ((bulkApproveStep rev now (dbc, n) s).1).settings = dbc.settings := by
  cases h : getUser dbc s.user_id with
  | none => rw [bulkStep_skip rev now dbc n s h]
  | some u =>
    rw [bulkStep_run rev now dbc n s u h]
    exact (insertCompletedTask_proj _ _ _ _ _).2.2.1

/-- A bulk-approval step does not create or delete user rows. -/
theorem bulkStep_presence (rev : Nat) (now : Int) (dbc : DB) (n : Nat) (s : Submission)
    (x : Nat) :
    (getUser (bulkApproveStep rev now (dbc, n) s).1 x).isSome = (getUser dbc x).isSome := by
  cases h : getUser dbc s.user_id with
  | none => rw [bulkStep_skip rev now dbc n s h]
  | some u =>
    rw [bulkStep_run rev now dbc n s u h]
    show ((insertCompletedTask _ _ _ _ _).users.find? (fun v => v.id == x)).isSome
      = (getUser dbc x).isSome
    rw [(insertCompletedTask_proj _ _ _ _ _).1]
    show ((setBalance u.id (u.balance + s.task_reward.getD 0) dbc.users).find?
      (fun v => v.id == x)).isSome = (getUser dbc x).isSome
    rw [find?_setBalance]
    exact Option.isSome_map

/-- A bulk-approval step does not create or delete submission rows. -/
theorem bulkStep_sub_presence (rev : Nat) (now : Int) (dbc : DB) (n : Nat) (s : Submission)
    (t : Nat) :
    ((getSubmissionById (bulkApproveStep rev now (dbc, n) s).1 t)).isSome
      = (getSubmissionById dbc t).isSome := by
  cases h : getUser dbc s.user_id with
  | none => rw [bulkStep_skip rev now dbc n s h]
  | some u =>
    rw [bulkStep_run rev now dbc n s u h]
    show ((insertCompletedTask _ _ _ _ _).submissions.find? (fun v => v.id == t)).isSome = _
    rw [(insertCompletedTask_proj _ _ _ _ _).2.1]
    show ((updateWhere (fun x => x.id == s.id) (approveSubmissionUpdate rev now)
      dbc.submissions).find? (fun v => v.id == t)).isSome = _
    unfold updateWhere
    rw [find?_map_pres (fun a => by by_cases ha : a.id = s.id <;> simp [approveSubmissionUpdate, ha])]
    exact Option.isSome_map

/-- The processed count after one step. -/
theorem bulkStep_count (rev : Nat) (now : Int) (dbc : DB) (n : Nat) (s : Submission) :
    (bulkApproveStep rev now (dbc, n) s).2
      = n + (if (getUser dbc s.user_id).isSome = true then 1 else 0) := by
  cases h : getUser dbc s.user_id with
  | none => rw [bulkStep_skip rev now dbc n s h]; simp
  | some u => rw [bulkStep_run rev now dbc n s u h]; simp

/-- Balance effect of one bulk-approval step: the owning account of a
processed row is credited by the snapshotted reward, everyone else keeps the
balance. -/
theorem bulkStep_balance (rev : Nat) (now : Int) (dbc : DB) (n : Nat) (s : Submission)
    (uid : Nat) :
    balanceOf (bulkApproveStep rev now (dbc, n) s).1 uid
      = if (getUser dbc s.user_id).isSome = true ∧ uid = s.user_id
        then balanceOf dbc uid + s.task_reward.getD 0
        else balanceOf dbc uid := by
  cases h : getUser dbc s.user_id with
  | none =>
    rw [bulkStep_skip rev now dbc n s h, if_neg (by simp)]
  | some u =>
    have hid : u.id = s.user_id := by
      have h' : dbc.users.find? (fun x => x.id == s.user_id) = some u := h
      simpa using List.find?_some h'
    have hfind : getUser (bulkApproveStep rev now (dbc, n) s).1 uid
        = (getUser dbc uid).map
            (fun x => if x.id == u.id then { x with balance := u.balance + s.task_reward.getD 0 }
              else x) := by
      rw [bulkStep_run rev now dbc n s u h]
      show ((insertCompletedTask _ _ _ _ _).users.find? (fun v => v.id == uid)) = _
      rw [(insertCompletedTask_proj _ _ _ _ _).1]
      exact find?_setBalance _ _ _ _
    by_cases huid : uid = s.user_id
    · subst huid
      rw [if_pos (show (some u).isSome = true ∧ s.user_id = s.user_id from ⟨rfl, rfl⟩)]
      unfold balanceOf
      rw [hfind, h]
      simp [hid]
    · rw [if_neg (by simp [huid])]
      unfold balanceOf
      rw [hfind]
      cases hx : getUser dbc uid with
      | none => rfl
      | some x =>
        have hxid : x.id = uid := by
          have hx' : dbc.users.find? (fun v => v.id == uid) = some x := hx
          simpa using List.find?_some hx'
        have : ¬ x.id = u.id := by rw [hxid, hid]; exact huid
        simp [this]

/-- One step leaves the status of every other submission id unchanged. -/
theorem bulkStep_status_other (rev : Nat) (now : Int) (dbc : DB) (n : Nat) (s : Submission)
    (t : Nat) (ht : s.id ≠ t) :
    submissionStatus (bulkApproveStep rev now (dbc, n) s).1 t = submissionStatus dbc t := by
  cases h : getUser dbc s.user_id with
  | none => rw [bulkStep_skip rev now dbc n s h]
  | some u =>
    rw [bulkStep_run rev now dbc n s u h]
    unfold submissionStatus
    congr 1
    show ((insertCompletedTask _ _ _ _ _).submissions.find? (fun v => v.id == t)) = _
    rw [(insertCompletedTask_proj _ _ _ _ _).2.1]
    show ((updateWhere (fun x => x.id == s.id) (approveSubmissionUpdate rev now)
      dbc.submissions).find? (fun v => v.id == t)) = _
    unfold updateWhere
    have hq : ∀ a : Submission,
        (((if (a.id == s.id) = true then approveSubmissionUpdate rev now a else a).id == t))
          = (a.id == t) := by
      intro a
      by_cases hc : (a.id == s.id) = true <;> simp [approveSubmissionUpdate, hc]
    have hfix : ∀ a : Submission, (a.id == t) = true →
        (if (a.id == s.id) = true then approveSubmissionUpdate rev now a else a) = a := by
      intro a ha
      have hat : a.id = t := by simpa using ha
      rw [if_neg (by simp [hat]; exact fun hc => ht hc.symm)]
    rw [find?_map_invariant hq hfix]
    rfl

/-- One step marks its own row approved when the owner exists and the row is
present. -/
theorem bulkStep_status_self (rev : Nat) (now : Int) (dbc : DB) (n : Nat) (s : Submission)
    (u : User) (sub0 : Submission) (h : getUser dbc s.user_id = some u)
    (hfind : getSubmissionById dbc s.id = some sub0) :
    submissionStatus (bulkApproveStep rev now (dbc, n) s).1 s.id = some "approved" := by
  rw [bulkStep_run rev now dbc n s u h]
  unfold submissionStatus
  have : getSubmissionById (insertCompletedTask
      { dbc with
        submissions := updateWhere (fun x => x.id == s.id)
          (approveSubmissionUpdate rev now) dbc.submissions
        users := setBalance u.id (u.balance + s.task_reward.getD 0) dbc.users }
      u.id s.task_id now s.task_reward) s.id
      = some (approveSubmissionUpdate rev now sub0) := by
    show ((insertCompletedTask _ _ _ _ _).submissions.find? (fun v => v.id == s.id)) = _
    rw [(insertCompletedTask_proj _ _ _ _ _).2.1]
    exact find?_updateWhere_found (p := fun x : Submission => x.id == s.id)
      (f := approveSubmissionUpdate rev now) (fun a => rfl) hfind
  rw [this]
  rfl

/- ----------------------- C5: loop lemmas ----------------------- -/

/-- The bulk loop never touches the settings table. -/
theorem bulkLoop_settings (rev : Nat) (now : Int) :
    ∀ (l : List Submission) (acc : DB × Nat),
    ((l.foldl (bulkApproveStep rev now) acc).1).settings = acc.1.settings := by
  intro l
  induction l with
  | nil => intro acc; rfl
  | cons s l ih =>
    intro acc
    rw [List.foldl_cons, ih]
    rcases acc with ⟨dbc, n⟩
    exact bulkStep_settings rev now dbc n s

/-- The bulk loop never creates or deletes user rows. -/
theorem bulkLoop_presence (rev : Nat) (now : Int) :
    ∀ (l : List Submission) (acc : DB × Nat) (x : Nat),
    (getUser ((l.foldl (bulkApproveStep rev now) acc).1) x).isSome = (getUser acc.1 x).isSome := by
  intro l
  induction l with
  | nil => intro acc x; rfl
  | cons s l ih =>
    intro acc x
    rw [List.foldl_cons, ih]
    rcases acc with ⟨dbc, n⟩
    exact bulkStep_presence rev now dbc n s x

/-- The bulk loop never creates or deletes submission rows. -/
theorem bulkLoop_sub_presence (rev : Nat) (now : Int) :
    ∀ (l : List Submission) (acc : DB × Nat) (t : Nat),
    (getSubmissionById ((l.foldl (bulkApproveStep rev now) acc).1) t).isSome
      = (getSubmissionById acc.1 t).isSome := by
  intro l
  induction l with
  | nil => intro acc t; rfl
  | cons s l ih =>
    intro acc t
    rw [List.foldl_cons, ih]
    rcases acc with ⟨dbc, n⟩
    exact bulkStep_sub_presence rev now dbc n s t

/-- The processed count after the bulk loop: the rows whose owner exists. -/
theorem bulkLoop_count (rev : Nat) (now : Int) :
    ∀ (l : List Submission) (acc : DB × Nat),
    (l.foldl (bulkApproveStep rev now) acc).2
      = acc.2 + (l.filter (fun s => (getUser acc.1 s.user_id).isSome)).length := by
  intro l
  induction l with
  | nil => intro acc; simp
  | cons s l ih =>
    intro acc
    rw [List.foldl_cons, ih]
    rcases acc with ⟨dbc, n⟩
    have hfc : l.filter (fun s2 => (getUser (bulkApproveStep rev now (dbc, n) s).1 s2.user_id).isSome)
        = l.filter (fun s2 => (getUser dbc s2.user_id).isSome) :=
      List.filter_congr (fun s2 _ => by rw [bulkStep_presence])
    rw [hfc, bulkStep_count, List.filter_cons]
    by_cases hc : (getUser dbc s.user_id).isSome = true
    · simp only [hc, if_pos rfl, if_true, List.length_cons]
      omega
    · simp only [hc]
      have : (getUser dbc s.user_id).isSome = false := by
        cases hx : (getUser dbc s.user_id).isSome
        · rfl
        · exact absurd hx hc
      simp [this]

/-- Balance after the bulk loop: every account is credited by the sum of the
snapshotted rewards of the processed rows it owns. -/
theorem bulkLoop_balance (rev : Nat) (now : Int) :
    ∀ (l : List Submission) (acc : DB × Nat) (uid : Nat),
    balanceOf ((l.foldl (bulkApproveStep rev now) acc).1) uid
      = balanceOf acc.1 uid
        + ((l.filter (fun s => s.user_id == uid && (getUser acc.1 s.user_id).isSome)).map
            (fun s => s.task_reward.getD 0)).sum := by
  intro l
  induction l with
  | nil => intro acc uid; simp
  | cons s l ih =>
    intro acc uid
    rw [List.foldl_cons, ih]
    rcases acc with ⟨dbc, n⟩
    have hfc : l.filter (fun s2 => s2.user_id == uid &&
          (getUser (bulkApproveStep rev now (dbc, n) s).1 s2.user_id).isSome)
        = l.filter (fun s2 => s2.user_id == uid && (getUser dbc s2.user_id).isSome) :=
      List.filter_congr (fun s2 _ => by rw [bulkStep_presence])
    rw [hfc, bulkStep_balance, List.filter_cons]
    by_cases hp : (getUser dbc s.user_id).isSome = true ∧ uid = s.user_id
    · rw [if_pos hp]
      have hcond : (s.user_id == uid && (getUser dbc s.user_id).isSome) = true := by
        simp [hp.1, hp.2]
      rw [if_pos hcond, List.map_cons, List.sum_cons]
      ring
    · rw [if_neg hp]
      have hcond : ¬ (s.user_id == uid && (getUser dbc s.user_id).isSome) = true := by
        intro hc
        simp only [Bool.and_eq_true, beq_iff_eq] at hc
        exact hp ⟨hc.2, hc.1.symm⟩
      rw [if_neg hcond]

/-- The bulk loop leaves the status of every id absent from the processed list
unchanged. -/
theorem bulkLoop_status_untouched (rev : Nat) (now : Int) :
    ∀ (l : List Submission) (acc : DB × Nat) (t : Nat), (∀ s ∈ l, s.id ≠ t) →
    submissionStatus ((l.foldl (bulkApproveStep rev now) acc).1) t
      = submissionStatus acc.1 t := by
  intro l
  induction l with
  | nil => intro acc t _; rfl
  | cons s l ih =>
    intro acc t hl
    rw [List.foldl_cons, ih _ _ (fun s2 hs2 => hl s2 (List.mem_cons_of_mem s hs2))]
    rcases acc with ⟨dbc, n⟩
    exact bulkStep_status_other rev now dbc n s t (hl s (List.mem_cons_self s l))

/-- In a table whose ids are distinct, looking a member row up by its own id
finds exactly that row. -/
theorem find?_eq_of_mem_of_nodup {α : Type} (idOf : α → Nat) :
    ∀ {l : List α}, ((l.map idOf).Nodup) → ∀ {a : α}, a ∈ l →
    l.find? (fun x => idOf x == idOf a) = some a := by
  intro l
  induction l with
  | nil => intro _ a ha; cases ha
  | cons b l ih =>
    intro hnd a ha
    rw [List.map_cons, List.nodup_cons] at hnd
    rcases List.mem_cons.mp ha with rfl | hmem
    · rw [List.find?_cons_of_pos _ (by simp)]
    · have hne : idOf b ≠ idOf a := by
        intro hc
        exact hnd.1 (hc ▸ List.mem_map_of_mem idOf hmem)
      rw [List.find?_cons_of_neg _ (by simp [hne]), ih hnd.2 hmem]

/-- After the bulk loop, a listed row with distinct ids whose owner exists is
approved. -/
theorem bulkLoop_status_approved (rev : Nat) (now : Int) :
    ∀ (l : List Submission) (acc : DB × Nat) (t : Nat), ((l.map (·.id)).Nodup) →
    ∀ s ∈ l, s.id = t → (getUser acc.1 s.user_id).isSome = true →
    (getSubmissionById acc.1 t).isSome = true →
    submissionStatus ((l.foldl (bulkApproveStep rev now) acc).1) t = some "approved" := by
  intro l
  induction l with
  | nil => intro _ _ _ s hs; cases hs
  | cons s' l ih =>
    intro acc t hnd s hs hst howner hsubp
    rw [List.map_cons, List.nodup_cons] at hnd
    rcases List.mem_cons.mp hs with rfl | hmem
    · rw [List.foldl_cons]
      rcases acc with ⟨dbc, n⟩
      obtain ⟨u, hu⟩ := Option.isSome_iff_exists.mp howner
      obtain ⟨sub0, hsub0⟩ := Option.isSome_iff_exists.mp hsubp
      have happ := bulkStep_status_self rev now dbc n s u sub0 hu (by rw [hst]; exact hsub0)
      have hrest : ∀ s2 ∈ l, s2.id ≠ t := by
        intro s2 hs2 hc
        have hm : s2.id ∈ l.map (·.id) := List.mem_map_of_mem (·.id) hs2
        rw [hc, ← hst] at hm
        exact hnd.1 hm
      rw [bulkLoop_status_untouched rev now l _ t hrest]
      rw [hst] at happ
      exact happ
    · rw [List.foldl_cons]
      rcases acc with ⟨dbc, n⟩
      refine ih _ t hnd.2 s hmem hst ?_ ?_
      · rw [bulkStep_presence]
        exact howner
      · rw [bulkStep_sub_presence]
        exact hsubp

/-- After the bulk loop, a listed row with distinct ids whose owner is gone is
skipped: its status is untouched. -/
theorem bulkLoop_status_skipped (rev : Nat) (now : Int) :
    ∀ (l : List Submission) (acc : DB × Nat) (t : Nat), ((l.map (·.id)).Nodup) →
    ∀ s ∈ l, s.id = t → getUser acc.1 s.user_id = none →
    submissionStatus ((l.foldl (bulkApproveStep rev now) acc).1) t
      = submissionStatus acc.1 t := by
  intro l
  induction l with
  | nil => intro _ _ _ s hs; cases hs
  | cons s' l ih =>
    intro acc t hnd s hs hst howner
    rw [List.map_cons, List.nodup_cons] at hnd
    rcases List.mem_cons.mp hs with rfl | hmem
    · rw [List.foldl_cons]
      rcases acc with ⟨dbc, n⟩
      rw [bulkStep_skip rev now dbc n s howner]
      have hrest : ∀ s2 ∈ l, s2.id ≠ t := by
        intro s2 hs2 hc
        have hm : s2.id ∈ l.map (·.id) := List.mem_map_of_mem (·.id) hs2
        rw [hc, ← hst] at hm
        exact hnd.1 hm
      exact bulkLoop_status_untouched rev now l _ t hrest
    · rw [List.foldl_cons]
      rcases acc with ⟨dbc, n⟩
      have hnone : getUser (bulkApproveStep rev now (dbc, n) s').1 s.user_id = none := by
        have := bulkStep_presence rev now dbc n s' s.user_id
        rw [howner] at this
        exact Option.not_isSome_iff_eq_none.mp (by rw [this]; simp)
      have hs'ne : s'.id ≠ t := by
        intro hc
        have hm : s.id ∈ l.map (·.id) := List.mem_map_of_mem (·.id) hmem
        rw [hst, ← hc] at hm
        exact hnd.1 hm
      rw [ih _ t hnd.2 s hmem hst hnone]
      exact bulkStep_status_other rev now dbc n s' t hs'ne

/- ----------------------- C5 ----------------------- -/

/-- setSetting changes no submission status. -/
theorem submissionStatus_setSetting (dbx : DB) (k v : String) (t : Nat) :
    submissionStatus (setSetting dbx k v) t = submissionStatus dbx t := by
  unfold submissionStatus
  congr 1
  show (setSetting dbx k v).submissions.find? (fun s => s.id == t) = _
  rw [(setSetting_proj dbx k v).2.1]
  rfl

/-- setSetting changes no balance. -/
theorem balanceOf_setSetting (dbx : DB) (k v : String) (uid : Nat) :
    balanceOf (setSetting dbx k v) uid = balanceOf dbx uid := by
  unfold balanceOf
  congr 1
  show (setSetting dbx k v).users.find? (fun u => u.id == uid) = _
  rw [(setSetting_proj dbx k v).1]
  rfl

/-- C5: over a submissions table with distinct ids, the bulk approval marks
every pending row with an existing owner approved, leaves a pending row whose
owner is gone pending (skipped without aborting), credits every account by the
sum of the snapshotted rewards of its own pending rows, returns the number of
processed rows, and bumps the stored tasksApproved counter by exactly that
number. -/
theorem bulkApprove_spec (db : DB) (rev : Nat) (now : Int)
    (hnodup : (db.submissions.map (·.id)).Nodup) :
    (∀ sub ∈ db.submissions, sub.status = "pending" →
      (getUser db sub.user_id).isSome = true →
      submissionStatus (approveAllPendingSubmissions db rev now).1 sub.id = some "approved") ∧
    (∀ sub ∈ db.submissions, sub.status = "pending" → getUser db sub.user_id = none →
      submissionStatus (approveAllPendingSubmissions db rev now).1 sub.id = some "pending") ∧
    (∀ uid, (getUser db uid).isSome = true →
      balanceOf (approveAllPendingSubmissions db rev now).1 uid
        = balanceOf db uid
          + ((db.submissions.filter (fun s => s.status == "pending" && s.user_id == uid)).map
              (fun s => s.task_reward.getD 0)).sum) ∧
    (approveAllPendingSubmissions db rev now).2
      = (db.submissions.filter
          (fun s => s.status == "pending" && (getUser db s.user_id).isSome)).length ∧
    settingIntOr0 (approveAllPendingSubmissions db rev now).1 "tasksApproved"
      = settingIntOr0 db "tasksApproved" + (approveAllPendingSubmissions db rev now).2 := by
  have hnd2 : (((db.submissions.filter (fun s => s.status == "pending")).map (·.id)).Nodup) :=
    List.Nodup.sublist (List.Sublist.map _ (List.filter_sublist _)) hnodup
  have hfst : (approveAllPendingSubmissions db rev now).1
      = setSetting ((db.submissions.filter (fun s => s.status == "pending")).foldl
          (bulkApproveStep rev now) (db, 0)).1 "tasksApproved"
        (intToDecString (settingIntOr0 db "tasksApproved"
          + ((db.submissions.filter (fun s => s.status == "pending")).foldl
              (bulkApproveStep rev now) (db, 0)).2)) := rfl
  have hsnd : (approveAllPendingSubmissions db rev now).2
      = ((db.submissions.filter (fun s => s.status == "pending")).foldl
          (bulkApproveStep rev now) (db, 0)).2 := rfl
  refine ⟨?_, ?_, ?_, ?_, ?_⟩
  · intro sub hmem hpending howner
    have hsubfind : db.submissions.find? (fun x => x.id == sub.id) = some sub :=
      find?_eq_of_mem_of_nodup (fun x : Submission => x.id) hnodup hmem
    rw [hfst, submissionStatus_setSetting]
    exact bulkLoop_status_approved rev now _ (db, 0) sub.id hnd2 sub
      (List.mem_filter.mpr ⟨hmem, by simp [hpending]⟩) rfl howner
      (by rw [show getSubmissionById (db, 0).1 sub.id = some sub from hsubfind]; rfl)
  · intro sub hmem hpending howner
    have hsubfind : db.submissions.find? (fun x => x.id == sub.id) = some sub :=
      find?_eq_of_mem_of_nodup (fun x : Submission => x.id) hnodup hmem
    rw [hfst, submissionStatus_setSetting]
    rw [bulkLoop_status_skipped rev now _ (db, 0) sub.id hnd2 sub
      (List.mem_filter.mpr ⟨hmem, by simp [hpending]⟩) rfl howner]
    show submissionStatus db sub.id = some "pending"
    unfold submissionStatus getSubmissionById
    rw [hsubfind]
    simp [hpending]
  · intro uid hu
    rw [hfst, balanceOf_setSetting]
    rw [bulkLoop_balance rev now _ (db, 0) uid]
    have hfeq : (db.submissions.filter (fun s => s.status == "pending")).filter
          (fun s => s.user_id == uid && (getUser (db, 0).1 s.user_id).isSome)
        = db.submissions.filter (fun s => s.status == "pending" && s.user_id == uid) := by
      rw [List.filter_filter]
      apply List.filter_congr
      intro s _
      by_cases h1 : s.user_id = uid
      · rw [h1]
        simp [hu, Bool.and_comm]
      · have hbe : (s.user_id == uid) = false := by simp [h1]
        rw [hbe]
        simp
    rw [hfeq]
  · rw [hsnd, bulkLoop_count rev now _ (db, 0)]
    have hfeq : (db.submissions.filter (fun s => s.status == "pending")).filter
          (fun s => (getUser (db, 0).1 s.user_id).isSome)
        = db.submissions.filter (fun s => s.status == "pending" && (getUser db s.user_id).isSome) := by
      rw [List.filter_filter]
      apply List.filter_congr
      intro s _
      exact Bool.and_comm _ _
    rw [hfeq]
    simp
  · rw [hsnd, hfst, settingIntOr0_setSetting]

/-- Concrete bulk approval run: an owned pending row is approved, the orphaned
row 6 stays pending, account 1 is credited the sum of its own pending rewards,
and the processed count is the number of owned pending rows. -/
theorem bulkApprove_witness :
    submissionStatus (approveAllPendingSubmissions bulkDB 9 0).1 1 = some "approved" ∧
    submissionStatus (approveAllPendingSubmissions bulkDB 9 0).1 6 = some "pending" ∧
    balanceOf (approveAllPendingSubmissions bulkDB 9 0).1 1
      = balanceOf bulkDB 1
        + ((bulkDB.submissions.filter (fun s => s.status == "pending" && s.user_id == 1)).map
            (fun s => s.task_reward.getD 0)).sum ∧
    (approveAllPendingSubmissions bulkDB 9 0).2
      = (bulkDB.submissions.filter
          (fun s => s.status == "pending" && (getUser bulkDB s.user_id).isSome)).length := by
  have h := bulkApprove_spec bulkDB 9 0 (by decide)
  exact ⟨h.1 (baseSubmission 1 1 11 10) (by decide) rfl (by decide),
    h.2.1 (baseSubmission 6 9 16 7) (by decide) rfl (by decide),
    h.2.2.1 1 (by decide),
    h.2.2.2.1⟩
